import Mathlib

/-!
# Robot Code+ windowing subsystem — shallow embedding

This file embeds the core of the `code-plus/ui` windowing subsystem
(`modalWindow.ts`, `modalManager.ts`, `dock.ts`, `launchpad.ts`,
`titleBar.ts`, `utils.ts`, `customUIManager.ts`) and proves the
testable properties of its specification against it.

Conventions of the embedding:
* JS numbers (pixel coordinates, deltas) are rationals `ℚ`;
  z-indices are integers `ℤ`.
* DOM element styles that carry program state are explicit fields:
  `style.display` becomes `visible : Bool`, `style.opacity` becomes
  `opacity : ℚ`, the `data-active` attribute becomes `active : Bool`,
  `style.zIndex` becomes `elemZIndex : ℤ`, and the four layout styles
  become a `Geometry`.
* JS object identity (the `Map` stores references, and the manager
  compares `this.activeModal === modal`) is modelled by a numeric
  `wid` allocated from a counter at creation time.
* Callbacks wired in `customUIManager.setupEventHandlers` are modelled
  by applying their effect (dock updates) where the source fires them;
  where a claim is about the deliveries themselves, an explicit event
  list is produced.
-/

/-- Layout of a modal element: `style.left/top/width/height`
(`modalWindow.ts`, `createModalElement`). -/
structure Geometry where
  left : ℚ
  top : ℚ
  width : ℚ
  height : ℚ
  deriving Repr, DecidableEq

/-- The eight compass resize handles of `createResizeHandles`
(`nw, n, ne, e, se, s, sw, w`). -/
inductive ResizeDir where
  | nw | n | ne | e | se | s | sw | w
  deriving Repr, DecidableEq

/-- `direction.includes('e')` on the handle name. -/
def ResizeDir.hasE : ResizeDir → Bool
  | .ne | .e | .se => true
  | _ => false

/-- `direction.includes('w')` on the handle name. -/
def ResizeDir.hasW : ResizeDir → Bool
  | .nw | .sw | .w => true
  | _ => false

/-- `direction.includes('s')` on the handle name. -/
def ResizeDir.hasS : ResizeDir → Bool
  | .se | .s | .sw => true
  | _ => false

/-- `direction.includes('n')` on the handle name. -/
def ResizeDir.hasN : ResizeDir → Bool
  | .nw | .n | .ne => true
  | _ => false

/-- One `mousemove` step of `ModalWindow.startResize`: starting from the
geometry at gesture start, apply the cumulative deltas for one handle.
Horizontal: `e` grows width, `w` shrinks width and shifts `left` by the
width change; both clamp at 300.  Vertical: `s`/`n` likewise with clamp
200 and `top`.  (`modalWindow.ts`, `startResize`.) -/
def resizeStep (g : Geometry) (dir : ResizeDir) (deltaX deltaY : ℚ) : Geometry :=
  let hor : ℚ × ℚ :=
    if dir.hasE then (max 300 (g.width + deltaX), g.left)
    else if dir.hasW then
      let newWidth := max 300 (g.width - deltaX)
      (newWidth, g.left + (g.width - newWidth))
    else (g.width, g.left)
  let ver : ℚ × ℚ :=
    if dir.hasS then (max 200 (g.height + deltaY), g.top)
    else if dir.hasN then
      let newHeight := max 200 (g.height - deltaY)
      (newHeight, g.top + (g.height - newHeight))
    else (g.height, g.top)
  { left := hor.2, top := ver.2, width := hor.1, height := ver.1 }

/-- A finite sequence of resize steps (each step is the settled result of
one resize gesture; the next gesture snapshots the geometry it left). -/
def applyResizes (g : Geometry) (steps : List (ResizeDir × ℚ × ℚ)) : Geometry :=
  steps.foldl (fun acc s => resizeStep acc s.1 s.2.1 s.2.2) g

/-- `ModalWindow.makeDraggable`: a drag translates `left/top` by the
cumulative mouse delta, with no clamping. -/
def dragStep (g : Geometry) (deltaX deltaY : ℚ) : Geometry :=
  { g with left := g.left + deltaX, top := g.top + deltaY }

/-- `ModalState` from `types.ts`.  `isActive` and `zIndex` are written at
construction and never updated afterwards: `setActive` and `setZIndex`
write only to the DOM element, a quirk this embedding reproduces. -/
structure ModalState where
  isMinimized : Bool
  isMaximized : Bool
  isActive : Bool
  zIndex : ℤ
  originalSize : Option Geometry
  deriving Repr, DecidableEq

/-- A `ModalWindow` (`modalWindow.ts`) together with the state-bearing
parts of its DOM element.  `wid` models JS object identity. -/
structure ModalWindow where
  wid : ℕ
  title : String
  titleBarColor : String
  /-- element style left/top/width/height -/
  geometry : Geometry
  /-- element style `display` is not `none` -/
  visible : Bool
  /-- element style `opacity` (unset at creation = 1) -/
  opacity : ℚ
  /-- element attribute `data-active` (unset at creation = false) -/
  active : Bool
  /-- element style `z-index` (the `cssText` sets 100) -/
  elemZIndex : ℤ
  state : ModalState
  deriving Repr, DecidableEq

/-- Notifications a window emits to its registered callbacks
(`minimizeCallback` / `restoreCallback`). -/
inductive ModalEvent where
  | minimized (title : String)
  | restored (title : String)
  deriving Repr, DecidableEq

/-- `ModalWindow.minimize`: hide the element, set `isMinimized`, notify.
Note the source has no already-minimized guard. -/
def ModalWindow.minimize (w : ModalWindow) : ModalWindow × List ModalEvent :=
  ({ w with visible := false, state := { w.state with isMinimized := true } },
   [.minimized w.title])

/-- `ModalWindow.restore`: only from the minimized state; show the
element, clear `isMinimized`, notify.  Otherwise a no-op. -/
def ModalWindow.restore (w : ModalWindow) : ModalWindow × List ModalEvent :=
  if w.state.isMinimized then
    ({ w with visible := true, state := { w.state with isMinimized := false } },
     [.restored w.title])
  else (w, [])

/-- `ModalWindow.maximize` (private): if not maximized, snapshot the
current rect into `originalSize` and fill the host surface minus a 10px
inset (`calc(100% - 20px)` at `left/top = 10`). -/
def ModalWindow.maximize (w : ModalWindow) (hostWidth hostHeight : ℚ) : ModalWindow :=
  if w.state.isMaximized then w
  else
    { w with
      geometry := { left := 10, top := 10, width := hostWidth - 20, height := hostHeight - 20 },
      state := { w.state with isMaximized := true, originalSize := some w.geometry } }

/-- `ModalWindow.restoreSize` (private): if maximized and a saved rect is
present, write it back exactly and clear it. -/
def ModalWindow.restoreSize (w : ModalWindow) : ModalWindow :=
  match w.state.isMaximized, w.state.originalSize with
  | true, some g =>
      { w with
        geometry := g,
        state := { w.state with isMaximized := false, originalSize := none } }
  | _, _ => w

/-- `ModalWindow.toggleMaximize`. -/
def ModalWindow.toggleMaximize (w : ModalWindow) (hostWidth hostHeight : ℚ) : ModalWindow :=
  if w.state.isMaximized then w.restoreSize else w.maximize hostWidth hostHeight

/-! ## JavaScript string primitives used by the launchpad filter -/

namespace JSString

/-- Substring test on character lists (`String.prototype.includes`). -/
def containsList (needle : List Char) : List Char → Bool
  | [] => needle.isEmpty
  | c :: rest => needle.isPrefixOf (c :: rest) || containsList needle rest

/-- `String.prototype.includes` (an empty needle is always contained). -/
def includes (s needle : String) : Bool :=
  containsList needle.data s.data

/-- `String.prototype.toLowerCase`, on the ASCII titles and queries this
program handles. -/
def toLowerCase (s : String) : String :=
  String.mk (s.data.map Char.toLower)

/-- `String.prototype.trim`: strip whitespace from both ends. -/
def trim (s : String) : String :=
  String.mk (((s.data.dropWhile Char.isWhitespace).reverse.dropWhile Char.isWhitespace).reverse)

end JSString

/-- A launchpad catalog record (`launchpad.ts`, `ModalDefinition`). -/
structure ModalDefinition where
  title : String
  width : ℚ
  height : ℚ
  titleBarColor : String
  icon : String
  deriving Repr, DecidableEq

/-- The fixed catalog from `Launchpad.initializeModalDefinitions`
(icon glyphs abbreviated to ASCII tags; no claim depends on them). -/
def modalDefinitions : List ModalDefinition :=
  [ { title := "HELLO Dialog", width := 600, height := 400, titleBarColor := "#007acc", icon := "wave" },
    { title := "Small Window", width := 400, height := 300, titleBarColor := "#8e44ad", icon := "phone" },
    { title := "Large Window", width := 800, height := 600, titleBarColor := "#e67e22", icon := "desktop" },
    { title := "Settings", width := 500, height := 400, titleBarColor := "#95a5a6", icon := "gear" },
    { title := "File Manager", width := 700, height := 500, titleBarColor := "#3498db", icon := "folder" },
    { title := "Terminal", width := 600, height := 400, titleBarColor := "#2c3e50", icon := "terminal" },
    { title := "Calculator", width := 300, height := 400, titleBarColor := "#e74c3c", icon := "abacus" },
    { title := "Text Editor", width := 650, height := 450, titleBarColor := "#27ae60", icon := "memo" } ]

/-- `Launchpad.filterModals`: lowercase and trim the query; empty result
keeps the full catalog, otherwise filter by lowercased-title containment. -/
def filterModals (defs : List ModalDefinition) (query : String) : List ModalDefinition :=
  let searchTerm := JSString.trim (JSString.toLowerCase query)
  if searchTerm = "" then defs
  else defs.filter (fun m => JSString.includes (JSString.toLowerCase m.title) searchTerm)

/-- The filtered view exactly as claim C7 words it: the catalog
subsequence whose titles contain the query case-insensitively (no
trimming of the query). -/
def claimFilteredView (defs : List ModalDefinition) (query : String) : List ModalDefinition :=
  defs.filter (fun m => JSString.includes (JSString.toLowerCase m.title) (JSString.toLowerCase query))

/-- `DOMUtils.calculateRandomModalPosition` (`utils.ts`): the two
`Math.random()` draws are passed in as `randL, randT ∈ [0, 1)`. -/
def calculateRandomModalPosition (randL randT : ℚ) (innerWidth innerHeight width height : ℚ) : ℚ × ℚ :=
  let maxLeft := max 50 (innerWidth - width - 50)
  let maxTop := max 50 (innerHeight - height - 100)
  (randL * maxLeft + 50, randT * maxTop + 50)

/-! ## The modal registry (`modalManager.ts`) and its wired collaborators

`CustomUIManager.setupEventHandlers` wires the manager's callbacks:
`onModalMinimized → dock.addMinimizedModal`, `onModalRestoredFromDock →
dock.removeModal`, `onModalClosed → dock.removeModal`, and each created
window's `onMinimize`/`onRestore` are forwarded to those callbacks.
The state below therefore carries the dock's entry keys alongside the
manager's own fields.  The dock entry's icon payload (computed by
`DOMUtils.getModalIcon` from the missing `constants.ts` icon table) is
irrelevant to every claim and is omitted; entries are keyed by title. -/
structure ModalManager where
  /-- `modals : Map<string, ModalWindow>` in insertion order. -/
  modals : List ModalWindow
  /-- `nextZIndex` (initialised to 1000). -/
  nextZIndex : ℤ
  /-- `activeModal` as the identity of the referenced window. -/
  activeModal : Option ℕ
  /-- the wired `Dock.minimizedModals` key set, in insertion order. -/
  dock : List String
  /-- allocator for window identities (models JS object allocation). -/
  counter : ℕ
  deriving Repr, DecidableEq

/-- `Map.set` keyed by title: replace in place, else append. -/
def mapSet (l : List ModalWindow) (w : ModalWindow) : List ModalWindow :=
  if l.any (fun m => m.title == w.title) then
    l.map (fun m => if m.title == w.title then w else m)
  else l ++ [w]

/-- `Map.delete` keyed by title. -/
def mapDelete (l : List ModalWindow) (t : String) : List ModalWindow :=
  l.filter (fun m => m.title != t)

/-- `Dock.addMinimizedModal`: `Map.set` on the dock keys (an existing
key keeps its position, a new key is appended). -/
def dockAdd (d : List String) (t : String) : List String :=
  if d.contains t then d else d ++ [t]

/-- `Dock.removeModal`: `Map.delete` on the dock keys. -/
def dockRemove (d : List String) (t : String) : List String :=
  d.filter (fun s => s != t)

/-- Deliver one window notification through the wiring in
`CustomUIManager.setupEventHandlers`. -/
def applyEvent (st : ModalManager) (e : ModalEvent) : ModalManager :=
  match e with
  | .minimized t => { st with dock := dockAdd st.dock t }
  | .restored t => { st with dock := dockRemove st.dock t }

/-- Run a `ModalWindow` method on the window identified by `i` and
deliver the notifications it emits. -/
def updateWindow (st : ModalManager) (i : ℕ)
    (f : ModalWindow → ModalWindow × List ModalEvent) : ModalManager :=
  let evts := (st.modals.filter (fun m => m.wid == i)).foldl
    (fun acc m => acc ++ (f m).2) []
  let st1 := { st with modals := st.modals.map (fun m => if m.wid == i then (f m).1 else m) }
  evts.foldl applyEvent st1

/-- `ModalManager.bringModalToFront`: bump `nextZIndex` (kept at least
100), give the target the new top z-index and full opacity and the
active attribute, dim and deactivate every other modal, and record the
target as `activeModal`.  The selection callback (title-bar branding)
carries no registry state. -/
def bringModalToFront (st : ModalManager) (i : ℕ) : ModalManager :=
  let newZ := max (st.nextZIndex + 1) 100
  { st with
    nextZIndex := newZ,
    modals := st.modals.map (fun m =>
      if m.wid == i then { m with elemZIndex := newZ, opacity := 1, active := true }
      else { m with opacity := 9/10, active := false }),
    activeModal := some i }

/-- The window object built by `new ModalWindow(...)` plus its fresh DOM
element (`createModalElement` sets `display: flex`, `z-index: 100`; the
`data-active` attribute and an explicit opacity are unset). -/
def mkModalWindow (wid : ℕ) (title : String) (width height left top : ℚ)
    (titleBarColor : String) : ModalWindow :=
  { wid := wid, title := title, titleBarColor := titleBarColor,
    geometry := { left := left, top := top, width := width, height := height },
    visible := true, opacity := 1, active := false, elemZIndex := 100,
    state := { isMinimized := false, isMaximized := false, isActive := false,
               zIndex := 100, originalSize := none } }

/-- `ModalManager.createModal`: construct the window, store it keyed by
title (last write wins), and immediately bring it to the front. -/
def createModal (st : ModalManager) (title : String) (width height left top : ℚ)
    (titleBarColor : String) : ModalManager :=
  let w := mkModalWindow st.counter title width height left top titleBarColor
  let st1 := { st with modals := mapSet st.modals w, counter := st.counter + 1 }
  bringModalToFront st1 w.wid

/-- `ModalManager.closeModal` (the settled state after its exit-animation
timeout): delete the window's title from the map; if it was the active
modal, clear `activeModal` and, when any modal remains, bring the last
one in registry order to the front; finally the close callback removes
the title from the dock. -/
def closeModal (st : ModalManager) (w : ModalWindow) : ModalManager :=
  let st1 := { st with modals := mapDelete st.modals w.title }
  let st2 :=
    if st1.activeModal = some w.wid then
      let st1a := { st1 with activeModal := none }
      match st1a.modals.getLast? with
      | some last => bringModalToFront st1a last.wid
      | none => st1a
    else st1
  { st2 with dock := dockRemove st2.dock w.title }

/-- Minimize one window through its title-bar button: the window method
runs and its notification reaches the dock. -/
def minimizeModal (st : ModalManager) (i : ℕ) : ModalManager :=
  updateWindow st i ModalWindow.minimize

/-- Restore one window (the window method plus its notification). -/
def restoreModal (st : ModalManager) (i : ℕ) : ModalManager :=
  updateWindow st i ModalWindow.restore

/-- Toggle-maximize one window (no registry callbacks are involved). -/
def toggleMaximizeModal (st : ModalManager) (i : ℕ) (hostWidth hostHeight : ℚ) : ModalManager :=
  { st with modals := st.modals.map (fun m =>
      if m.wid == i then m.toggleMaximize hostWidth hostHeight else m) }

/-- Drag one window. -/
def dragModal (st : ModalManager) (i : ℕ) (deltaX deltaY : ℚ) : ModalManager :=
  { st with modals := st.modals.map (fun m =>
      if m.wid == i then { m with geometry := dragStep m.geometry deltaX deltaY } else m) }

/-- Resize one window. -/
def resizeModal (st : ModalManager) (i : ℕ) (dir : ResizeDir) (deltaX deltaY : ℚ) : ModalManager :=
  { st with modals := st.modals.map (fun m =>
      if m.wid == i then { m with geometry := resizeStep m.geometry dir deltaX deltaY } else m) }

/-- `ModalManager.restoreModalByTitle` (dock activation): look the title
up; if found and minimized, restore it, bring it to the front, and call
the restore-from-dock callback once more directly. -/
def restoreModalByTitle (st : ModalManager) (t : String) : ModalManager :=
  match st.modals.find? (fun m => m.title == t) with
  | some w =>
      if w.state.isMinimized then
        let st1 := restoreModal st w.wid
        let st2 := bringModalToFront st1 w.wid
        { st2 with dock := dockRemove st2.dock t }
      else st
  | none => st

/-- The titles delivered to the registry's restore-from-dock callback
during one `restoreModalByTitle` call: the window's own `restore`
notification is forwarded to it (`modalWindow.onRestore` wiring in
`createModal`), and `restoreModalByTitle` then calls it directly. -/
def restoreModalByTitleTrace (st : ModalManager) (t : String) : List String :=
  match st.modals.find? (fun m => m.title == t) with
  | some w =>
      if w.state.isMinimized then
        (w.restore.2.filterMap (fun e => match e with
          | .restored s => some s
          | .minimized _ => none)) ++ [t]
      else []
  | none => []

/-- `ModalManager.clearActiveModal` (background click / branding reset):
dim every modal to opacity 0.8, clear every active attribute, forget the
active modal. -/
def clearActiveModal (st : ModalManager) : ModalManager :=
  { st with
    modals := st.modals.map (fun m => { m with opacity := 4/5, active := false }),
    activeModal := none }

/-- `Map.forEach` over the live registry: visit the given keys in order,
looking each one up in the state current at visit time, and apply the
single-window operation to the window found (keys that have disappeared
are skipped). -/
def forEachLiveTitle (op : ModalManager → ℕ → ModalManager) :
    List String → ModalManager → ModalManager
  | [], s => s
  | k :: rest, s =>
      match s.modals.find? (fun m => m.title == k) with
      | some w => forEachLiveTitle op rest (op s w.wid)
      | none => forEachLiveTitle op rest s

/-- `ModalManager.minimizeAllModals`: `this.modals.forEach(modal =>
modal.minimize())` — iterates the live map, looking each entry up at
visit time.  Minimizing never changes the key set, so the visited keys
are the keys present at the start. -/
def minimizeAllModals (st : ModalManager) : ModalManager :=
  forEachLiveTitle minimizeModal (st.modals.map (fun m => m.title)) st

/-- `ModalManager.restoreAllModals`: `this.modals.forEach(modal =>
modal.restore())`, likewise over the live map. -/
def restoreAllModals (st : ModalManager) : ModalManager :=
  forEachLiveTitle restoreModal (st.modals.map (fun m => m.title)) st

/-- `ModalManager.closeAllModals`: snapshot the values
(`Array.from(this.modals.values())`) and close each. -/
def closeAllModals (st : ModalManager) : ModalManager :=
  st.modals.foldl closeModal st

/-- The loop body of `resetModalZIndexes`: assign `z, z+1, …` down the
registry order, returning the final counter value. -/
def resetZLoop : ℤ → List ModalWindow → List ModalWindow × ℤ
  | z, [] => ([], z)
  | z, m :: rest =>
      let r := resetZLoop (z + 1) rest
      ({ m with elemZIndex := z } :: r.1, r.2)

/-- `ModalManager.resetModalZIndexes`: reassign 1000, 1001, … in registry
order and resume the counter above them. -/
def resetModalZIndexes (st : ModalManager) : ModalManager :=
  let r := resetZLoop 1000 st.modals
  { st with modals := r.1, nextZIndex := r.2 }

/-- The title-bar app-icon click (`TitleBarManager.createAppIcon`):
`TitleBarManager.minimizeAllModals` sets every modal element's
`data-active` to false and hides it (`minimizeModalToDock`, whose
`modalMinimized` event has no listener and whose effect therefore never
reaches the `ModalWindow` state or the dock), then the dispatched
`brandingReset` event makes `CustomUIManager` call
`modalManager.clearActiveModal()`. -/
def titleBarMinimizeAll (st : ModalManager) : ModalManager :=
  let st1 := { st with modals := st.modals.map (fun m => { m with active := false, visible := false }) }
  clearActiveModal st1

/-- The registry before any window exists. -/
def initialManager : ModalManager :=
  { modals := [], nextZIndex := 1000, activeModal := none, dock := [], counter := 0 }

/-- One user-level operation of the windowing subsystem.  Operations
that target a window take one that is actually registered. -/
inductive Step : ModalManager → ModalManager → Prop where
  | create (st : ModalManager) (title : String) (width height left top : ℚ) (color : String) :
      Step st (createModal st title width height left top color)
  | focus (st : ModalManager) (w : ModalWindow) (hw : w ∈ st.modals) :
      Step st (bringModalToFront st w.wid)
  | close (st : ModalManager) (w : ModalWindow) (hw : w ∈ st.modals) :
      Step st (closeModal st w)
  | minimize (st : ModalManager) (w : ModalWindow) (hw : w ∈ st.modals) :
      Step st (minimizeModal st w.wid)
  | restore (st : ModalManager) (w : ModalWindow) (hw : w ∈ st.modals) :
      Step st (restoreModal st w.wid)
  | restoreByTitle (st : ModalManager) (t : String) :
      Step st (restoreModalByTitle st t)
  | clearActive (st : ModalManager) :
      Step st (clearActiveModal st)
  | toggleMax (st : ModalManager) (w : ModalWindow) (hw : w ∈ st.modals) (hostW hostH : ℚ) :
      Step st (toggleMaximizeModal st w.wid hostW hostH)
  | drag (st : ModalManager) (w : ModalWindow) (hw : w ∈ st.modals) (dx dy : ℚ) :
      Step st (dragModal st w.wid dx dy)
  | resize (st : ModalManager) (w : ModalWindow) (hw : w ∈ st.modals)
      (dir : ResizeDir) (dx dy : ℚ) :
      Step st (resizeModal st w.wid dir dx dy)
  | minimizeAll (st : ModalManager) : Step st (minimizeAllModals st)
  | restoreAll (st : ModalManager) : Step st (restoreAllModals st)
  | closeAll (st : ModalManager) : Step st (closeAllModals st)
  | resetZ (st : ModalManager) : Step st (resetModalZIndexes st)
  | titleBarMinAll (st : ModalManager) : Step st (titleBarMinimizeAll st)

/-- Registry states reachable from start through the operations. -/
inductive Reachable : ModalManager → Prop where
  | init : Reachable initialManager
  | step {st st' : ModalManager} : Reachable st → Step st st' → Reachable st'

/-! ## Registry invariant definitions and auxiliary states -/

/-- The registry's recorded active modal matches the `data-active`
attributes: when none is recorded every window is inactive; when one is
recorded it is registered and exactly the windows with its identity are
active. -/
def ActiveOK (st : ModalManager) : Prop :=
  match st.activeModal with
  | none => ∀ w ∈ st.modals, w.active = false
  | some i => (∃ w ∈ st.modals, w.wid = i) ∧ ∀ w ∈ st.modals, (w.active = true ↔ w.wid = i)

/-- Structural wellformedness of a registry state: identities and map
keys are unique, identities come from the allocator, and every element
z-index is bounded by the counter, which never drops below its base. -/
structure PreInv (st : ModalManager) : Prop where
  widsNodup : (st.modals.map (fun m => m.wid)).Nodup
  titlesNodup : (st.modals.map (fun m => m.title)).Nodup
  counterBound : ∀ w ∈ st.modals, w.wid < st.counter
  zBound : ∀ w ∈ st.modals, w.elemZIndex ≤ st.nextZIndex
  zBase : 1000 ≤ st.nextZIndex

/-- The full registry invariant. -/
def RegInv (st : ModalManager) : Prop := PreInv st ∧ ActiveOK st

/-- The per-window update `bringModalToFront` performs (named for proof
reuse; definitionally the map function in `bringModalToFront`). -/
def focusMapFun (newZ : ℤ) (i : ℕ) (m : ModalWindow) : ModalWindow :=
  if m.wid == i then { m with elemZIndex := newZ, opacity := 1, active := true }
  else { m with opacity := 9/10, active := false }

/-- A concrete state: one window created from the launcher catalog. -/
def demoState1 : ModalManager :=
  createModal initialManager "HELLO Dialog" 600 400 100 100 "#007acc"

/-- A concrete state: a second window created after the first. -/
def demoState2 : ModalManager :=
  createModal demoState1 "Small Window" 400 300 200 200 "#8e44ad"

/-- The window stored in `demoState1` (created, then focused). -/
def demoWindow1 : ModalWindow :=
  { wid := 0, title := "HELLO Dialog", titleBarColor := "#007acc",
    geometry := { left := 100, top := 100, width := 600, height := 400 },
    visible := true, opacity := 1, active := true, elemZIndex := 1001,
    state := { isMinimized := false, isMaximized := false, isActive := false,
               zIndex := 100, originalSize := none } }

/-- The second (active) window stored in `demoState2`. -/
def demoWindow2 : ModalWindow :=
  { wid := 1, title := "Small Window", titleBarColor := "#8e44ad",
    geometry := { left := 200, top := 200, width := 400, height := 300 },
    visible := true, opacity := 1, active := true, elemZIndex := 1002,
    state := { isMinimized := false, isMaximized := false, isActive := false,
               zIndex := 100, originalSize := none } }

/-- Modelled from the spec: minimize-all iterates a snapshot of the
window collection taken before iteration begins, applying the
single-window minimize to each element. -/
def snapshotMinimizeAll (st : ModalManager) : ModalManager :=
  st.modals.foldl (fun s w => minimizeModal s w.wid) st

/-- Modelled from the spec: restore-all over a pre-iteration snapshot. -/
def snapshotRestoreAll (st : ModalManager) : ModalManager :=
  st.modals.foldl (fun s w => restoreModal s w.wid) st

/-- Modelled from the spec: close-all over a pre-iteration snapshot. -/
def snapshotCloseAll (st : ModalManager) : ModalManager :=
  st.modals.foldl closeModal st

/-- The window of `demoState1` after it is minimized. -/
def demoWindow1Min : ModalWindow :=
  { wid := 0, title := "HELLO Dialog", titleBarColor := "#007acc",
    geometry := { left := 100, top := 100, width := 600, height := 400 },
    visible := false, opacity := 1, active := true, elemZIndex := 1001,
    state := { isMinimized := true, isMaximized := false, isActive := false,
               zIndex := 100, originalSize := none } }

/-! ## Helper lemmas -/

/-- One resize step keeps the width at or above the 300 clamp. -/
theorem resizeStep_width_ge (g : Geometry) (dir : ResizeDir) (dx dy : ℚ)
    (h : 300 ≤ g.width) : 300 ≤ (resizeStep g dir dx dy).width := by
  cases dir <;>
    simp [resizeStep, ResizeDir.hasE, ResizeDir.hasW, ResizeDir.hasS, ResizeDir.hasN,
      le_max_left, h]

/-- One resize step keeps the height at or above the 200 clamp. -/
theorem resizeStep_height_ge (g : Geometry) (dir : ResizeDir) (dx dy : ℚ)
    (h : 200 ≤ g.height) : 200 ≤ (resizeStep g dir dx dy).height := by
  cases dir <;>
    simp [resizeStep, ResizeDir.hasE, ResizeDir.hasW, ResizeDir.hasS, ResizeDir.hasN,
      le_max_left, h]

/-- Any sequence of resize steps keeps both minimum dimensions. -/
theorem applyResizes_bounds (steps : List (ResizeDir × ℚ × ℚ)) (g : Geometry)
    (hW : 300 ≤ g.width) (hH : 200 ≤ g.height) :
    300 ≤ (applyResizes g steps).width ∧ 200 ≤ (applyResizes g steps).height := by
  induction steps generalizing g with
  | nil => exact ⟨hW, hH⟩
  | cons s rest ih =>
      have h1 := resizeStep_width_ge g s.1 s.2.1 s.2.2 hW
      have h2 := resizeStep_height_ge g s.1 s.2.1 s.2.2 hH
      simpa [applyResizes] using ih (resizeStep g s.1 s.2.1 s.2.2) h1 h2

/-- The empty needle is contained in every string. -/
theorem includes_empty (s : String) : JSString.includes s "" = true := by
  show JSString.containsList [] s.data = true
  cases s.data with
  | nil => rfl
  | cons c rest => rfl

/-! ## Claim theorems -/

/-- C4: for every window in the Normal state, two successive
`toggleMaximize()` calls restore the geometry exactly, with the state
back to Normal and the saved geometry cleared. -/
theorem toggleMaximize_roundtrip (w : ModalWindow) (hostW hostH : ℚ)
    (hMin : w.state.isMinimized = false) (hMax : w.state.isMaximized = false) :
    ((w.toggleMaximize hostW hostH).toggleMaximize hostW hostH).geometry = w.geometry ∧
    ((w.toggleMaximize hostW hostH).toggleMaximize hostW hostH).state.isMaximized = false ∧
    ((w.toggleMaximize hostW hostH).toggleMaximize hostW hostH).state.isMinimized = false ∧
    ((w.toggleMaximize hostW hostH).toggleMaximize hostW hostH).state.originalSize = none := by
  simp [ModalWindow.toggleMaximize, ModalWindow.maximize, ModalWindow.restoreSize, hMax, hMin]

/-- Witness for C4 at a concrete Normal window. -/
theorem toggleMaximize_roundtrip_witness :
    (mkModalWindow 0 "HELLO Dialog" 600 400 100 100 "#007acc").state.isMinimized = false ∧
    (mkModalWindow 0 "HELLO Dialog" 600 400 100 100 "#007acc").state.isMaximized = false ∧
    (((mkModalWindow 0 "HELLO Dialog" 600 400 100 100 "#007acc").toggleMaximize 1280 720).toggleMaximize
        1280 720).geometry = (mkModalWindow 0 "HELLO Dialog" 600 400 100 100 "#007acc").geometry :=
  ⟨rfl, rfl, (toggleMaximize_roundtrip (mkModalWindow 0 "HELLO Dialog" 600 400 100 100 "#007acc")
      1280 720 rfl rfl).1⟩

/-- C6: any finite sequence of resize steps on a window that satisfies
the 300×200 minimum keeps `width ≥ 300 ∧ height ≥ 200`, and a west
(resp. north) resize — clamped or not — shifts `left` (resp. `top`) so
that the east (resp. south) edge does not move at all, hence never past
the minimum-sized boundary. -/
theorem resize_bounds_and_clamp (g : Geometry) (steps : List (ResizeDir × ℚ × ℚ))
    (g' : Geometry) (dir : ResizeDir) (dx dy : ℚ)
    (hW : 300 ≤ g.width) (hH : 200 ≤ g.height) :
    (300 ≤ (applyResizes g steps).width ∧ 200 ≤ (applyResizes g steps).height) ∧
    (dir.hasW = true →
      (resizeStep g' dir dx dy).left + (resizeStep g' dir dx dy).width = g'.left + g'.width) ∧
    (dir.hasN = true →
      (resizeStep g' dir dx dy).top + (resizeStep g' dir dx dy).height = g'.top + g'.height) := by
  refine ⟨applyResizes_bounds steps g hW hH, ?_, ?_⟩ <;>
    cases dir <;>
      simp [resizeStep, ResizeDir.hasE, ResizeDir.hasW, ResizeDir.hasS, ResizeDir.hasN] <;>
      ring

/-- Witness for C6: a 600×400 window, one west resize whose delta would
drive the width to 200 (clamped to 300). -/
theorem resize_bounds_and_clamp_witness :
    (300 ≤ (⟨100, 100, 600, 400⟩ : Geometry).width ∧ 200 ≤ (⟨100, 100, 600, 400⟩ : Geometry).height) ∧
    ((300 ≤ (applyResizes ⟨100, 100, 600, 400⟩ [(ResizeDir.w, 400, 0)]).width ∧
      200 ≤ (applyResizes ⟨100, 100, 600, 400⟩ [(ResizeDir.w, 400, 0)]).height) ∧
     (ResizeDir.hasW ResizeDir.w = true →
       (resizeStep ⟨100, 100, 600, 400⟩ ResizeDir.w 400 0).left +
         (resizeStep ⟨100, 100, 600, 400⟩ ResizeDir.w 400 0).width = 100 + 600) ∧
     (ResizeDir.hasN ResizeDir.w = true →
       (resizeStep ⟨100, 100, 600, 400⟩ ResizeDir.w 400 0).top +
         (resizeStep ⟨100, 100, 600, 400⟩ ResizeDir.w 400 0).height = 100 + 400)) :=
  ⟨⟨by norm_num, by norm_num⟩,
   resize_bounds_and_clamp ⟨100, 100, 600, 400⟩ [(ResizeDir.w, 400, 0)]
     ⟨100, 100, 600, 400⟩ ResizeDir.w 400 0 (by norm_num) (by norm_num)⟩

/-- C7 counterexample: the claim's untrimmed reading fails on the real
catalog at the query `" hello"` — the code trims the query and shows
"HELLO Dialog", while no catalog title contains `" hello"`. -/
theorem filterModals_claim_counterexample :
    filterModals modalDefinitions " hello" ≠ claimFilteredView modalDefinitions " hello" := by
  decide

/-- C7 amended: `setQuery(q)` yields exactly the catalog subsequence
whose titles contain the whitespace-trimmed `q` case-insensitively
(a query that is empty or all whitespace yields the full catalog),
preserving catalog order. -/
theorem filterModals_spec (defs : List ModalDefinition) (q : String) :
    filterModals defs q =
      defs.filter (fun m =>
        JSString.includes (JSString.toLowerCase m.title) (JSString.trim (JSString.toLowerCase q))) ∧
    List.Sublist (filterModals defs q) defs := by
  constructor
  · unfold filterModals
    by_cases h : JSString.trim (JSString.toLowerCase q) = ""
    · simp only [h, if_pos rfl]
      exact (List.filter_eq_self.2 (fun m _ => includes_empty _)).symm
    · simp [h]
  · unfold filterModals
    by_cases h : JSString.trim (JSString.toLowerCase q) = ""
    · simp [h]
    · simp only [h, if_neg h]
      exact List.filter_sublist _

/-- C9 counterexample: the claim's upper bound `left ≤ max(50, hostWidth −
width − 50)` fails: a 600-wide window on a 1000×800 host with random
draw 0.9 is placed at left = 365 > 350. -/
theorem calculateRandomModalPosition_claim_counterexample :
    ¬ ((calculateRandomModalPosition (9/10) (9/10) 1000 800 600 400).1 ≤
        max 50 (1000 - 600 - 50 : ℚ)) := by
  norm_num [calculateRandomModalPosition]

/-- C9 amended: for draws in `[0, 1)` the placement satisfies
`50 ≤ left < 50 + max(50, hostWidth − width − 50)` and
`50 ≤ top < 50 + max(50, hostHeight − height − 100)`. -/
theorem calculateRandomModalPosition_bounds (randL randT innerW innerH w h : ℚ)
    (h1 : 0 ≤ randL) (h2 : randL < 1) (h3 : 0 ≤ randT) (h4 : randT < 1) :
    (50 ≤ (calculateRandomModalPosition randL randT innerW innerH w h).1 ∧
     (calculateRandomModalPosition randL randT innerW innerH w h).1 <
       50 + max 50 (innerW - w - 50)) ∧
    (50 ≤ (calculateRandomModalPosition randL randT innerW innerH w h).2 ∧
     (calculateRandomModalPosition randL randT innerW innerH w h).2 <
       50 + max 50 (innerH - h - 100)) := by
  have hL : (50 : ℚ) ≤ max 50 (innerW - w - 50) := le_max_left _ _
  have hT : (50 : ℚ) ≤ max 50 (innerH - h - 100) := le_max_left _ _
  have e1 : (calculateRandomModalPosition randL randT innerW innerH w h).1 =
      randL * max 50 (innerW - w - 50) + 50 := rfl
  have e2 : (calculateRandomModalPosition randL randT innerW innerH w h).2 =
      randT * max 50 (innerH - h - 100) + 50 := rfl
  rw [e1, e2]
  constructor
  · constructor
    · nlinarith [mul_nonneg h1 (le_trans (by norm_num) hL)]
    · nlinarith [mul_lt_mul_of_pos_right h2 (lt_of_lt_of_le (by norm_num) hL)]
  · constructor
    · nlinarith [mul_nonneg h3 (le_trans (by norm_num) hT)]
    · nlinarith [mul_lt_mul_of_pos_right h4 (lt_of_lt_of_le (by norm_num) hT)]

/-- Witness for C9 amended at concrete draws. -/
theorem calculateRandomModalPosition_bounds_witness :
    ((0 : ℚ) ≤ 9/10 ∧ (9/10 : ℚ) < 1) ∧
    ((50 ≤ (calculateRandomModalPosition (9/10) (9/10) 1000 800 600 400).1 ∧
      (calculateRandomModalPosition (9/10) (9/10) 1000 800 600 400).1 <
        50 + max 50 (1000 - 600 - 50)) ∧
     (50 ≤ (calculateRandomModalPosition (9/10) (9/10) 1000 800 600 400).2 ∧
      (calculateRandomModalPosition (9/10) (9/10) 1000 800 600 400).2 <
        50 + max 50 (800 - 400 - 100))) :=
  ⟨⟨by norm_num, by norm_num⟩,
   calculateRandomModalPosition_bounds (9/10) (9/10) 1000 800 600 400
     (by norm_num) (by norm_num) (by norm_num) (by norm_num)⟩

/-- C10: restoring a registered, minimized window by title delivers the
restore-from-dock notification exactly twice: once forwarded from the
window's own restore notification and once directly from
`restoreModalByTitle`. -/
theorem restoreModalByTitle_twice (st : ModalManager) (t : String) (w : ModalWindow)
    (hfind : st.modals.find? (fun m => m.title == t) = some w)
    (hmin : w.state.isMinimized = true) :
    restoreModalByTitleTrace st t = [t, t] := by
  have htitle : w.title = t := by
    have := List.find?_some hfind
    simpa using this
  unfold restoreModalByTitleTrace
  rw [hfind]
  simp [hmin, ModalWindow.restore, htitle]

/-! ## Registry invariants -/

/-- Mapping windows through a function that preserves a field preserves
the projected list. -/
theorem map_map_eq_of {β : Type} (l : List ModalWindow) (g : ModalWindow → ModalWindow)
    (f : ModalWindow → β) (hg : ∀ m, f (g m) = f m) : (l.map g).map f = l.map f := by
  induction l with
  | nil => rfl
  | cons a t ih => simp only [List.map_cons, hg a, ih]

/-- `PreInv` only depends on the modal list, the z counter and the
identity allocator. -/
theorem preInv_congr {st st' : ModalManager} (hm : st'.modals = st.modals)
    (hz : st'.nextZIndex = st.nextZIndex) (hc : st'.counter = st.counter)
    (h : PreInv st) : PreInv st' :=
  ⟨by rw [hm]; exact h.widsNodup,
   by rw [hm]; exact h.titlesNodup,
   by rw [hm, hc]; exact h.counterBound,
   by rw [hm, hz]; exact h.zBound,
   by rw [hz]; exact h.zBase⟩

/-- `ActiveOK` only depends on the modal list and the recorded active
modal. -/
theorem activeOK_congr {st st' : ModalManager} (hm : st'.modals = st.modals)
    (ha : st'.activeModal = st.activeModal) (h : ActiveOK st) : ActiveOK st' := by
  unfold ActiveOK at h ⊢
  rw [ha, hm]
  exact h

/-- Delivering one notification only changes the dock. -/
theorem applyEvent_fields (s : ModalManager) (e : ModalEvent) :
    (applyEvent s e).modals = s.modals ∧ (applyEvent s e).activeModal = s.activeModal ∧
    (applyEvent s e).nextZIndex = s.nextZIndex ∧ (applyEvent s e).counter = s.counter := by
  cases e <;> exact ⟨rfl, rfl, rfl, rfl⟩

/-- Delivering a list of notifications only changes the dock. -/
theorem applyEvents_fields (evts : List ModalEvent) (s : ModalManager) :
    (evts.foldl applyEvent s).modals = s.modals ∧
    (evts.foldl applyEvent s).activeModal = s.activeModal ∧
    (evts.foldl applyEvent s).nextZIndex = s.nextZIndex ∧
    (evts.foldl applyEvent s).counter = s.counter := by
  induction evts generalizing s with
  | nil => exact ⟨rfl, rfl, rfl, rfl⟩
  | cons e t ih =>
      obtain ⟨h1, h2, h3, h4⟩ := ih (applyEvent s e)
      obtain ⟨g1, g2, g3, g4⟩ := applyEvent_fields s e
      exact ⟨by rw [List.foldl_cons, h1, g1], by rw [List.foldl_cons, h2, g2],
             by rw [List.foldl_cons, h3, g3], by rw [List.foldl_cons, h4, g4]⟩

/-- `PreInv` is preserved by rewriting each window through a function
preserving identity, title and element z-index. -/
theorem preInv_map {st : ModalManager} (g : ModalWindow → ModalWindow)
    (hwid : ∀ m, (g m).wid = m.wid) (htit : ∀ m, (g m).title = m.title)
    (hz : ∀ m, (g m).elemZIndex = m.elemZIndex) (h : PreInv st) :
    PreInv { st with modals := st.modals.map g } := by
  refine ⟨?_, ?_, ?_, ?_, h.zBase⟩
  · rw [show ({ st with modals := st.modals.map g } : ModalManager).modals = st.modals.map g from rfl,
      map_map_eq_of st.modals g _ hwid]
    exact h.widsNodup
  · rw [show ({ st with modals := st.modals.map g } : ModalManager).modals = st.modals.map g from rfl,
      map_map_eq_of st.modals g _ htit]
    exact h.titlesNodup
  · intro w hw
    obtain ⟨m, hm, rfl⟩ := List.mem_map.1 hw
    rw [hwid m]
    exact h.counterBound m hm
  · intro w hw
    obtain ⟨m, hm, rfl⟩ := List.mem_map.1 hw
    rw [hz m]
    exact h.zBound m hm

/-- `ActiveOK` is preserved by rewriting each window through a function
preserving identity and the active attribute. -/
theorem activeOK_map {st : ModalManager} (g : ModalWindow → ModalWindow)
    (hwid : ∀ m, (g m).wid = m.wid) (hact : ∀ m, (g m).active = m.active)
    (h : ActiveOK st) : ActiveOK { st with modals := st.modals.map g } := by
  unfold ActiveOK at h ⊢
  cases hA : st.activeModal with
  | none =>
      rw [hA] at h
      intro w hw
      obtain ⟨m, hm, rfl⟩ := List.mem_map.1 hw
      rw [hact m]
      exact h m hm
  | some i =>
      rw [hA] at h
      obtain ⟨⟨m0, hm0, hwid0⟩, hiff⟩ := h
      refine ⟨⟨g m0, List.mem_map_of_mem g hm0, ?_⟩, ?_⟩
      · rw [hwid m0]; exact hwid0
      · intro w hw
        obtain ⟨m, hm, rfl⟩ := List.mem_map.1 hw
        rw [hact m, hwid m]
        exact hiff m hm

/-- `bringModalToFront` in terms of `focusMapFun`. -/
theorem bringModalToFront_eq (st : ModalManager) (i : ℕ) :
    bringModalToFront st i =
      { st with
        nextZIndex := max (st.nextZIndex + 1) 100,
        modals := st.modals.map (focusMapFun (max (st.nextZIndex + 1) 100) i),
        activeModal := some i } := rfl

/-- `focusMapFun` preserves window identity. -/
theorem focusMapFun_wid (newZ : ℤ) (i : ℕ) (m : ModalWindow) :
    (focusMapFun newZ i m).wid = m.wid := by
  unfold focusMapFun
  by_cases hc : (m.wid == i) = true
  · rw [if_pos hc]
  · rw [if_neg hc]

/-- `focusMapFun` preserves window titles. -/
theorem focusMapFun_title (newZ : ℤ) (i : ℕ) (m : ModalWindow) :
    (focusMapFun newZ i m).title = m.title := by
  unfold focusMapFun
  by_cases hc : (m.wid == i) = true
  · rw [if_pos hc]
  · rw [if_neg hc]

/-- Focusing preserves structural wellformedness. -/
theorem preInv_bringModalToFront (st : ModalManager) (i : ℕ) (h : PreInv st) :
    PreInv (bringModalToFront st i) := by
  rw [bringModalToFront_eq]
  refine ⟨?_, ?_, ?_, ?_, ?_⟩
  · show ((st.modals.map (focusMapFun (max (st.nextZIndex + 1) 100) i)).map
      (fun m => m.wid)).Nodup
    rw [map_map_eq_of _ _ _ (focusMapFun_wid _ i)]
    exact h.widsNodup
  · show ((st.modals.map (focusMapFun (max (st.nextZIndex + 1) 100) i)).map
      (fun m => m.title)).Nodup
    rw [map_map_eq_of _ _ _ (focusMapFun_title _ i)]
    exact h.titlesNodup
  · intro w hw
    obtain ⟨m, hm, rfl⟩ := List.mem_map.1 hw
    show (focusMapFun (max (st.nextZIndex + 1) 100) i m).wid < st.counter
    rw [focusMapFun_wid]
    exact h.counterBound m hm
  · intro w hw
    obtain ⟨m, hm, rfl⟩ := List.mem_map.1 hw
    show (focusMapFun (max (st.nextZIndex + 1) 100) i m).elemZIndex ≤
      max (st.nextZIndex + 1) 100
    unfold focusMapFun
    by_cases hc : (m.wid == i) = true
    · rw [if_pos hc]
    · rw [if_neg hc]
      have h1 := h.zBound m hm
      have h2 : st.nextZIndex ≤ st.nextZIndex + 1 := by linarith
      exact le_trans (le_trans h1 h2) (le_max_left _ _)
  · show (1000 : ℤ) ≤ max (st.nextZIndex + 1) 100
    have := h.zBase
    exact le_trans (by linarith) (le_max_left (st.nextZIndex + 1) 100)

/-- Focusing a registered window re-establishes the active-modal
consistency, whatever it was before. -/
theorem activeOK_bringModalToFront (st : ModalManager) (i : ℕ)
    (hEx : ∃ w ∈ st.modals, w.wid = i) : ActiveOK (bringModalToFront st i) := by
  obtain ⟨w0, hw0, hwid0⟩ := hEx
  rw [bringModalToFront_eq]
  unfold ActiveOK
  refine ⟨⟨focusMapFun (max (st.nextZIndex + 1) 100) i w0,
    List.mem_map_of_mem _ hw0, ?_⟩, ?_⟩
  · unfold focusMapFun
    simp [hwid0]
  · intro w hw
    obtain ⟨m, hm, rfl⟩ := List.mem_map.1 hw
    unfold focusMapFun
    by_cases hc : m.wid = i
    · simp [hc]
    · simp [hc]

/-- Focusing a registered window preserves the registry invariant. -/
theorem regInv_bringModalToFront (st : ModalManager) (i : ℕ)
    (hEx : ∃ w ∈ st.modals, w.wid = i) (h : RegInv st) :
    RegInv (bringModalToFront st i) :=
  ⟨preInv_bringModalToFront st i h.1, activeOK_bringModalToFront st i hEx⟩

/-- Running a window method that preserves identity, title, active
attribute and element z-index preserves the registry invariant. -/
theorem regInv_updateWindow (st : ModalManager) (i : ℕ)
    (f : ModalWindow → ModalWindow × List ModalEvent)
    (hwid : ∀ m, (f m).1.wid = m.wid) (htit : ∀ m, (f m).1.title = m.title)
    (hact : ∀ m, (f m).1.active = m.active) (hz : ∀ m, (f m).1.elemZIndex = m.elemZIndex)
    (h : RegInv st) : RegInv (updateWindow st i f) := by
  have hU : updateWindow st i f =
      ((st.modals.filter (fun m => m.wid == i)).foldl (fun acc m => acc ++ (f m).2) []).foldl
        applyEvent
        { st with modals := st.modals.map (fun m => if m.wid == i then (f m).1 else m) } := rfl
  obtain ⟨h1, h2, h3, h4⟩ := applyEvents_fields
    ((st.modals.filter (fun m => m.wid == i)).foldl (fun acc m => acc ++ (f m).2) [])
    { st with modals := st.modals.map (fun m => if m.wid == i then (f m).1 else m) }
  have gwid : ∀ m : ModalWindow, ((fun m => if m.wid == i then (f m).1 else m) m).wid = m.wid := by
    intro m
    by_cases hc : (m.wid == i) = true
    · simp only [if_pos hc]; exact hwid m
    · simp only [if_neg hc]
  have gtit : ∀ m : ModalWindow, ((fun m => if m.wid == i then (f m).1 else m) m).title = m.title := by
    intro m
    by_cases hc : (m.wid == i) = true
    · simp only [if_pos hc]; exact htit m
    · simp only [if_neg hc]
  have gact : ∀ m : ModalWindow, ((fun m => if m.wid == i then (f m).1 else m) m).active = m.active := by
    intro m
    by_cases hc : (m.wid == i) = true
    · simp only [if_pos hc]; exact hact m
    · simp only [if_neg hc]
  have gz : ∀ m : ModalWindow,
      ((fun m => if m.wid == i then (f m).1 else m) m).elemZIndex = m.elemZIndex := by
    intro m
    by_cases hc : (m.wid == i) = true
    · simp only [if_pos hc]; exact hz m
    · simp only [if_neg hc]
  rw [hU]
  exact ⟨preInv_congr h1 h3 h4 (preInv_map _ gwid gtit gz h.1),
         activeOK_congr h1 h2 (activeOK_map _ gwid gact h.2)⟩

/-- Every member of `mapSet l w` is `w` or a member of `l`. -/
theorem mem_mapSet (l : List ModalWindow) (w m' : ModalWindow) (h : m' ∈ mapSet l w) :
    m' = w ∨ m' ∈ l := by
  unfold mapSet at h
  by_cases hA : l.any (fun m => m.title == w.title) = true
  · rw [if_pos hA] at h
    obtain ⟨m, hm, rfl⟩ := List.mem_map.1 h
    by_cases hc : (m.title == w.title) = true
    · left; rw [if_pos hc]
    · right; rw [if_neg hc]; exact hm
  · rw [if_neg hA] at h
    rcases List.mem_append.1 h with h1 | h1
    · right; exact h1
    · left; simpa using h1

/-- The inserted window is a member of `mapSet l w`. -/
theorem mapSet_self_mem (l : List ModalWindow) (w : ModalWindow) : w ∈ mapSet l w := by
  unfold mapSet
  by_cases hA : l.any (fun m => m.title == w.title) = true
  · rw [if_pos hA]
    obtain ⟨m, hm, hmt⟩ := List.any_eq_true.1 hA
    exact List.mem_map.2 ⟨m, hm, by rw [if_pos hmt]⟩
  · rw [if_neg hA]
    exact List.mem_append.2 (Or.inr (by simp))

/-- The title list after `mapSet`: unchanged on replacement, appended on
fresh insertion. -/
theorem mapSet_titles (l : List ModalWindow) (w : ModalWindow) :
    (mapSet l w).map (fun m => m.title) =
      if l.any (fun m => m.title == w.title) then l.map (fun m => m.title)
      else l.map (fun m => m.title) ++ [w.title] := by
  unfold mapSet
  by_cases hA : l.any (fun m => m.title == w.title) = true
  · rw [if_pos hA, if_pos hA]
    apply map_map_eq_of
    intro m
    by_cases hc : (m.title == w.title) = true
    · rw [if_pos hc]; exact (eq_of_beq hc).symm
    · rw [if_neg hc]
  · rw [if_neg hA, if_neg hA, List.map_append]
    rfl

/-- Identities occurring after a title-keyed replacement come from the
replacement or from the original list. -/
theorem mem_replace_wids (t : List ModalWindow) (w : ModalWindow) (x : ℕ)
    (h : x ∈ (t.map (fun m => if m.title == w.title then w else m)).map (fun m => m.wid)) :
    x = w.wid ∨ x ∈ t.map (fun m => m.wid) := by
  obtain ⟨m', hm', rfl⟩ := List.mem_map.1 h
  obtain ⟨m, hm, rfl⟩ := List.mem_map.1 hm'
  by_cases hc : (m.title == w.title) = true
  · left; rw [if_pos hc]
  · right; rw [if_neg hc]; exact List.mem_map_of_mem _ hm

/-- Replacing the (unique) window of a title by a window with a fresh
identity keeps the identity list duplicate-free. -/
theorem replace_wids_nodup (l : List ModalWindow) (w : ModalWindow)
    (hn : (l.map (fun m => m.wid)).Nodup) (ht : (l.map (fun m => m.title)).Nodup)
    (hf : w.wid ∉ l.map (fun m => m.wid)) :
    ((l.map (fun m => if m.title == w.title then w else m)).map (fun m => m.wid)).Nodup := by
  induction l with
  | nil => simp
  | cons a t ih =>
      simp only [List.map_cons, List.nodup_cons] at hn ht ⊢
      obtain ⟨ha1, hn2⟩ := hn
      obtain ⟨ht1, ht2⟩ := ht
      simp only [List.map_cons, List.mem_cons] at hf
      push_neg at hf
      obtain ⟨hf1, hf2⟩ := hf
      by_cases hc : (a.title == w.title) = true
      · have hae : a.title = w.title := eq_of_beq hc
        have htail : t.map (fun m => if m.title == w.title then w else m) = t := by
          rw [show t = t.map id by simp]
          rw [List.map_map]
          apply List.map_congr_left
          intro m hm
          have hne : m.title ≠ w.title := by
            intro e
            apply ht1
            rw [hae, ← e]
            exact List.mem_map_of_mem _ hm
          simp [hne]
        rw [if_pos hc, htail]
        exact ⟨hf2, hn2⟩
      · rw [if_neg hc]
        refine ⟨?_, ih hn2 ht2 hf2⟩
        intro hmem
        rcases mem_replace_wids t w a.wid hmem with h1 | h1
        · exact hf1 h1.symm
        · exact ha1 h1

/-- `mapSet` with a fresh identity keeps the identity list
duplicate-free. -/
theorem mapSet_wids_nodup (l : List ModalWindow) (w : ModalWindow)
    (hn : (l.map (fun m => m.wid)).Nodup) (ht : (l.map (fun m => m.title)).Nodup)
    (hf : w.wid ∉ l.map (fun m => m.wid)) :
    ((mapSet l w).map (fun m => m.wid)).Nodup := by
  unfold mapSet
  by_cases hA : l.any (fun m => m.title == w.title) = true
  · rw [if_pos hA]
    exact replace_wids_nodup l w hn ht hf
  · rw [if_neg hA, List.map_append]
    refine List.Nodup.append hn (by simp) ?_
    intro x hx hx2
    simp only [List.map_cons, List.map_nil, List.mem_singleton] at hx2
    rw [hx2] at hx
    exact hf hx

/-- Creating a window preserves the registry invariant. -/
theorem regInv_createModal (st : ModalManager) (title : String)
    (width height left top : ℚ) (color : String) (h : RegInv st) :
    RegInv (createModal st title width height left top color) := by
  have hc : createModal st title width height left top color =
      bringModalToFront
        { st with
          modals := mapSet st.modals (mkModalWindow st.counter title width height left top color),
          counter := st.counter + 1 }
        (mkModalWindow st.counter title width height left top color).wid := rfl
  rw [hc]
  have hfresh : (mkModalWindow st.counter title width height left top color).wid ∉
      st.modals.map (fun m => m.wid) := by
    intro hmem
    obtain ⟨m, hm, he⟩ := List.mem_map.1 hmem
    have hlt := h.1.counterBound m hm
    rw [he] at hlt
    exact lt_irrefl _ hlt
  have hpre1 : PreInv
      { st with
        modals := mapSet st.modals (mkModalWindow st.counter title width height left top color),
        counter := st.counter + 1 } := by
    refine ⟨?_, ?_, ?_, ?_, ?_⟩
    · exact mapSet_wids_nodup st.modals _ h.1.widsNodup h.1.titlesNodup hfresh
    · show ((mapSet st.modals (mkModalWindow st.counter title width height left top color)).map
        (fun m => m.title)).Nodup
      rw [mapSet_titles]
      by_cases hA : st.modals.any
          (fun m => m.title == (mkModalWindow st.counter title width height left top color).title) = true
      · rw [if_pos hA]; exact h.1.titlesNodup
      · rw [if_neg hA]
        refine List.Nodup.append h.1.titlesNodup (by simp) ?_
        intro x hx hx2
        simp only [List.mem_singleton] at hx2
        subst hx2
        obtain ⟨m, hm, he⟩ := List.mem_map.1 hx
        exact hA (List.any_eq_true.2 ⟨m, hm, by simp [mkModalWindow, he]⟩)
    · intro m hm
      rcases mem_mapSet _ _ _ hm with rfl | hm2
      · exact Nat.lt_succ_self _
      · exact Nat.lt_succ_of_lt (h.1.counterBound m hm2)
    · intro m hm
      rcases mem_mapSet _ _ _ hm with rfl | hm2
      · show (100 : ℤ) ≤ st.nextZIndex
        have := h.1.zBase
        linarith
      · exact h.1.zBound m hm2
    · exact h.1.zBase
  exact ⟨preInv_bringModalToFront _ _ hpre1,
         activeOK_bringModalToFront _ _
           ⟨mkModalWindow st.counter title width height left top color,
            mapSet_self_mem _ _, rfl⟩⟩

/-- Deleting a title preserves structural wellformedness. -/
theorem preInv_mapDelete (st : ModalManager) (t : String) (h : PreInv st) :
    PreInv { st with modals := mapDelete st.modals t } := by
  have hsub : List.Sublist (mapDelete st.modals t) st.modals := List.filter_sublist _
  refine ⟨?_, ?_, ?_, ?_, h.zBase⟩
  · exact List.Nodup.sublist (hsub.map _) h.widsNodup
  · exact List.Nodup.sublist (hsub.map _) h.titlesNodup
  · intro m hm
    exact h.counterBound m (List.mem_filter.1 hm).1
  · intro m hm
    exact h.zBound m (List.mem_filter.1 hm).1

/-- Clearing the active modal restores the invariant from structural
wellformedness alone. -/
theorem regInv_clearActiveModal (st : ModalManager) (h : PreInv st) :
    RegInv (clearActiveModal st) := by
  refine ⟨@preInv_congr
    { st with modals := st.modals.map (fun m => { m with opacity := 4/5, active := false }) }
    (clearActiveModal st) rfl rfl rfl
    (preInv_map (fun m => { m with opacity := 4/5, active := false })
      (fun m => rfl) (fun m => rfl) (fun m => rfl) h), ?_⟩
  unfold ActiveOK
  intro m hm
  obtain ⟨m0, hm0, rfl⟩ := List.mem_map.1 hm
  rfl

/-- Minimizing a window preserves the registry invariant. -/
theorem regInv_minimizeModal (st : ModalManager) (i : ℕ) (h : RegInv st) :
    RegInv (minimizeModal st i) :=
  regInv_updateWindow st i ModalWindow.minimize
    (fun _ => rfl) (fun _ => rfl) (fun _ => rfl) (fun _ => rfl) h

/-- Restoring a window preserves the registry invariant. -/
theorem regInv_restoreModal (st : ModalManager) (i : ℕ) (h : RegInv st) :
    RegInv (restoreModal st i) := by
  apply regInv_updateWindow st i ModalWindow.restore ?_ ?_ ?_ ?_ h <;>
    intro m <;> unfold ModalWindow.restore <;>
      by_cases hc : m.state.isMinimized = true <;> simp [hc]

/-- `toggleMaximize` never touches identity. -/
theorem toggleMaximize_wid (m : ModalWindow) (hostW hostH : ℚ) :
    (m.toggleMaximize hostW hostH).wid = m.wid := by
  cases h2 : m.state.isMaximized <;> cases h3 : m.state.originalSize <;>
    simp [ModalWindow.toggleMaximize, ModalWindow.maximize, ModalWindow.restoreSize, h2, h3]

/-- `toggleMaximize` never touches the title. -/
theorem toggleMaximize_title (m : ModalWindow) (hostW hostH : ℚ) :
    (m.toggleMaximize hostW hostH).title = m.title := by
  cases h2 : m.state.isMaximized <;> cases h3 : m.state.originalSize <;>
    simp [ModalWindow.toggleMaximize, ModalWindow.maximize, ModalWindow.restoreSize, h2, h3]

/-- `toggleMaximize` never touches the active attribute. -/
theorem toggleMaximize_active (m : ModalWindow) (hostW hostH : ℚ) :
    (m.toggleMaximize hostW hostH).active = m.active := by
  cases h2 : m.state.isMaximized <;> cases h3 : m.state.originalSize <;>
    simp [ModalWindow.toggleMaximize, ModalWindow.maximize, ModalWindow.restoreSize, h2, h3]

/-- `toggleMaximize` never touches the element z-index. -/
theorem toggleMaximize_elemZIndex (m : ModalWindow) (hostW hostH : ℚ) :
    (m.toggleMaximize hostW hostH).elemZIndex = m.elemZIndex := by
  cases h2 : m.state.isMaximized <;> cases h3 : m.state.originalSize <;>
    simp [ModalWindow.toggleMaximize, ModalWindow.maximize, ModalWindow.restoreSize, h2, h3]

/-- Toggle-maximize preserves the registry invariant. -/
theorem regInv_toggleMaximizeModal (st : ModalManager) (i : ℕ) (hostW hostH : ℚ)
    (h : RegInv st) : RegInv (toggleMaximizeModal st i hostW hostH) := by
  have hwid : ∀ m : ModalWindow,
      ((fun m => if m.wid == i then m.toggleMaximize hostW hostH else m) m).wid = m.wid := by
    intro m
    by_cases hc : (m.wid == i) = true
    · simp only [if_pos hc]; exact toggleMaximize_wid m hostW hostH
    · simp only [if_neg hc]
  have htit : ∀ m : ModalWindow,
      ((fun m => if m.wid == i then m.toggleMaximize hostW hostH else m) m).title = m.title := by
    intro m
    by_cases hc : (m.wid == i) = true
    · simp only [if_pos hc]; exact toggleMaximize_title m hostW hostH
    · simp only [if_neg hc]
  have hact : ∀ m : ModalWindow,
      ((fun m => if m.wid == i then m.toggleMaximize hostW hostH else m) m).active = m.active := by
    intro m
    by_cases hc : (m.wid == i) = true
    · simp only [if_pos hc]; exact toggleMaximize_active m hostW hostH
    · simp only [if_neg hc]
  have hz : ∀ m : ModalWindow,
      ((fun m => if m.wid == i then m.toggleMaximize hostW hostH else m) m).elemZIndex =
        m.elemZIndex := by
    intro m
    by_cases hc : (m.wid == i) = true
    · simp only [if_pos hc]; exact toggleMaximize_elemZIndex m hostW hostH
    · simp only [if_neg hc]
  exact ⟨preInv_map _ hwid htit hz h.1, activeOK_map _ hwid hact h.2⟩

/-- Dragging preserves the registry invariant. -/
theorem regInv_dragModal (st : ModalManager) (i : ℕ) (dx dy : ℚ) (h : RegInv st) :
    RegInv (dragModal st i dx dy) := by
  have hwid : ∀ m : ModalWindow,
      ((fun m => if m.wid == i then { m with geometry := dragStep m.geometry dx dy } else m) m).wid
        = m.wid := by
    intro m
    by_cases hc : (m.wid == i) = true
    · simp only [if_pos hc]
    · simp only [if_neg hc]
  have htit : ∀ m : ModalWindow,
      ((fun m => if m.wid == i then { m with geometry := dragStep m.geometry dx dy } else m) m).title
        = m.title := by
    intro m
    by_cases hc : (m.wid == i) = true
    · simp only [if_pos hc]
    · simp only [if_neg hc]
  have hact : ∀ m : ModalWindow,
      ((fun m => if m.wid == i then { m with geometry := dragStep m.geometry dx dy } else m) m).active
        = m.active := by
    intro m
    by_cases hc : (m.wid == i) = true
    · simp only [if_pos hc]
    · simp only [if_neg hc]
  have hz : ∀ m : ModalWindow,
      ((fun m => if m.wid == i then { m with geometry := dragStep m.geometry dx dy } else m)
        m).elemZIndex = m.elemZIndex := by
    intro m
    by_cases hc : (m.wid == i) = true
    · simp only [if_pos hc]
    · simp only [if_neg hc]
  exact ⟨preInv_map _ hwid htit hz h.1, activeOK_map _ hwid hact h.2⟩

/-- Resizing preserves the registry invariant. -/
theorem regInv_resizeModal (st : ModalManager) (i : ℕ) (dir : ResizeDir) (dx dy : ℚ)
    (h : RegInv st) : RegInv (resizeModal st i dir dx dy) := by
  have hwid : ∀ m : ModalWindow,
      ((fun m => if m.wid == i then { m with geometry := resizeStep m.geometry dir dx dy } else m)
        m).wid = m.wid := by
    intro m
    by_cases hc : (m.wid == i) = true
    · simp only [if_pos hc]
    · simp only [if_neg hc]
  have htit : ∀ m : ModalWindow,
      ((fun m => if m.wid == i then { m with geometry := resizeStep m.geometry dir dx dy } else m)
        m).title = m.title := by
    intro m
    by_cases hc : (m.wid == i) = true
    · simp only [if_pos hc]
    · simp only [if_neg hc]
  have hact : ∀ m : ModalWindow,
      ((fun m => if m.wid == i then { m with geometry := resizeStep m.geometry dir dx dy } else m)
        m).active = m.active := by
    intro m
    by_cases hc : (m.wid == i) = true
    · simp only [if_pos hc]
    · simp only [if_neg hc]
  have hz : ∀ m : ModalWindow,
      ((fun m => if m.wid == i then { m with geometry := resizeStep m.geometry dir dx dy } else m)
        m).elemZIndex = m.elemZIndex := by
    intro m
    by_cases hc : (m.wid == i) = true
    · simp only [if_pos hc]
    · simp only [if_neg hc]
  exact ⟨preInv_map _ hwid htit hz h.1, activeOK_map _ hwid hact h.2⟩

/-- The title-bar app-icon minimize-all preserves the registry
invariant (it hides elements and then clears the selection). -/
theorem regInv_titleBarMinimizeAll (st : ModalManager) (h : RegInv st) :
    RegInv (titleBarMinimizeAll st) :=
  regInv_clearActiveModal
    { st with modals := st.modals.map (fun m => { m with active := false, visible := false }) }
    (preInv_map _ (fun _ => rfl) (fun _ => rfl) (fun _ => rfl) h.1)

/-- Transfer the registry invariant across states whose registry fields
agree (the dock may differ). -/
theorem regInv_transfer {st st' : ModalManager} (hm : st'.modals = st.modals)
    (ha : st'.activeModal = st.activeModal) (hz : st'.nextZIndex = st.nextZIndex)
    (hc : st'.counter = st.counter) (h : RegInv st) : RegInv st' :=
  ⟨preInv_congr hm hz hc h.1, activeOK_congr hm ha h.2⟩

/-- Closing a window whose title and identity key the same registry
entries preserves the registry invariant. -/
theorem regInv_closeModal (st : ModalManager) (w : ModalWindow)
    (hTW : ∀ m ∈ st.modals, (m.title = w.title ↔ m.wid = w.wid))
    (h : RegInv st) : RegInv (closeModal st w) := by
  have hpre1 : PreInv { st with modals := mapDelete st.modals w.title } :=
    preInv_mapDelete st w.title h.1
  unfold closeModal
  dsimp only
  by_cases hA : st.activeModal = some w.wid
  · rw [if_pos hA]
    have hst1a : RegInv { st with modals := mapDelete st.modals w.title, activeModal := none } := by
      refine ⟨@preInv_congr { st with modals := mapDelete st.modals w.title }
        { st with modals := mapDelete st.modals w.title, activeModal := none }
        rfl rfl rfl hpre1, ?_⟩
      unfold ActiveOK
      intro m hm
      have hm2 : m ∈ st.modals ∧ (m.title != w.title) = true := List.mem_filter.1 hm
      have hAok := h.2
      unfold ActiveOK at hAok
      rw [hA] at hAok
      obtain ⟨_, hiff⟩ := hAok
      have hneq : ¬ m.wid = w.wid := by
        intro e
        have ht2 : m.title = w.title := (hTW m hm2.1).2 e
        have hb := hm2.2
        simp [ht2] at hb
      have hna : ¬ m.active = true := fun e => hneq ((hiff m hm2.1).1 e)
      simpa using hna
    cases hl : (mapDelete st.modals w.title).getLast? with
    | none =>
        exact @regInv_transfer
          { st with modals := mapDelete st.modals w.title, activeModal := none } _
          rfl rfl rfl rfl hst1a
    | some last =>
        have hres := regInv_bringModalToFront
          { st with modals := mapDelete st.modals w.title, activeModal := none } last.wid
          ⟨last, List.mem_of_getLast?_eq_some hl, rfl⟩ hst1a
        exact @regInv_transfer
          (bringModalToFront
            { st with modals := mapDelete st.modals w.title, activeModal := none } last.wid) _
          rfl rfl rfl rfl hres
  · rw [if_neg hA]
    refine ⟨@preInv_congr { st with modals := mapDelete st.modals w.title } _
      rfl rfl rfl hpre1, ?_⟩
    have hAok := h.2
    unfold ActiveOK at hAok ⊢
    cases hA2 : st.activeModal with
    | none =>
        rw [hA2] at hAok
        intro m hm
        have hm2 : m ∈ st.modals ∧ (m.title != w.title) = true := List.mem_filter.1 hm
        exact hAok m hm2.1
    | some i =>
        rw [hA2] at hAok
        obtain ⟨⟨m0, hm0, hwid0⟩, hiff⟩ := hAok
        have hne : i ≠ w.wid := by
          intro e
          exact hA (by rw [hA2, e])
        refine ⟨⟨m0, ?_, hwid0⟩, ?_⟩
        · refine List.mem_filter.2 ⟨hm0, ?_⟩
          have hnt : ¬ m0.title = w.title := by
            intro e
            exact hne (by rw [← hwid0]; exact (hTW m0 hm0).1 e)
          simpa using hnt
        · intro m hm
          have hm2 : m ∈ st.modals ∧ (m.title != w.title) = true := List.mem_filter.1 hm
          exact hiff m hm2.1

/-- Every window of the state after `closeModal` keeps the title and
identity of a window of the state before. -/
theorem closeModal_pairs_subset (s : ModalManager) (w : ModalWindow) (m' : ModalWindow)
    (hm' : m' ∈ (closeModal s w).modals) :
    ∃ m ∈ s.modals, m'.title = m.title ∧ m'.wid = m.wid := by
  unfold closeModal at hm'
  dsimp only at hm'
  by_cases hA : s.activeModal = some w.wid
  · rw [if_pos hA] at hm'
    cases hl : (mapDelete s.modals w.title).getLast? with
    | none =>
        rw [hl] at hm'
        exact ⟨m', (List.mem_filter.1 hm').1, rfl, rfl⟩
    | some last =>
        rw [hl] at hm'
        have hb : m' ∈ (mapDelete s.modals w.title).map
            (focusMapFun (max (s.nextZIndex + 1) 100) last.wid) := hm'
        obtain ⟨m1, hm1, rfl⟩ := List.mem_map.1 hb
        exact ⟨m1, (List.mem_filter.1 hm1).1, focusMapFun_title _ _ _, focusMapFun_wid _ _ _⟩
  · rw [if_neg hA] at hm'
    exact ⟨m', (List.mem_filter.1 hm').1, rfl, rfl⟩

/-- Folding `closeModal` over a snapshot preserves the registry
invariant, given that each snapshot window keys the live entries
consistently. -/
theorem regInv_foldClose : ∀ (ws : List ModalWindow) (s : ModalManager), RegInv s →
    (∀ w ∈ ws, ∀ m ∈ s.modals, (m.title = w.title ↔ m.wid = w.wid)) →
    RegInv (ws.foldl closeModal s) := by
  intro ws
  induction ws with
  | nil => intro s h _; exact h
  | cons w rest ih =>
      intro s h hprop
      rw [List.foldl_cons]
      apply ih
      · exact regInv_closeModal s w (hprop w (List.mem_cons_self w rest)) h
      · intro w' hw' m' hm'
        obtain ⟨m, hm, ht, hd⟩ := closeModal_pairs_subset s w m' hm'
        rw [ht, hd]
        exact hprop w' (List.mem_cons_of_mem _ hw') m hm

/-- Closing every window preserves the registry invariant. -/
theorem regInv_closeAllModals (st : ModalManager) (h : RegInv st) :
    RegInv (closeAllModals st) := by
  apply regInv_foldClose st.modals st h
  intro w hw m hm
  constructor
  · intro e
    rw [List.inj_on_of_nodup_map h.1.titlesNodup hm hw e]
  · intro e
    rw [List.inj_on_of_nodup_map h.1.widsNodup hm hw e]

/-- Folding a single-window operation over live title lookups preserves
the registry invariant. -/
theorem regInv_foldKeys (op : ModalManager → ℕ → ModalManager)
    (hop : ∀ s i, RegInv s → RegInv (op s i)) :
    ∀ (keys : List String) (s : ModalManager), RegInv s →
      RegInv (forEachLiveTitle op keys s) := by
  intro keys
  induction keys with
  | nil => intro s h; exact h
  | cons k rest ih =>
      intro s h
      rw [forEachLiveTitle]
      cases hf : s.modals.find? (fun m => m.title == k) with
      | none => exact ih s h
      | some w => exact ih _ (hop s w.wid h)

/-- Minimize-all preserves the registry invariant. -/
theorem regInv_minimizeAllModals (st : ModalManager) (h : RegInv st) :
    RegInv (minimizeAllModals st) := by
  unfold minimizeAllModals
  exact regInv_foldKeys minimizeModal regInv_minimizeModal (st.modals.map (fun m => m.title)) st h

/-- Restore-all preserves the registry invariant. -/
theorem regInv_restoreAllModals (st : ModalManager) (h : RegInv st) :
    RegInv (restoreAllModals st) := by
  unfold restoreAllModals
  exact regInv_foldKeys restoreModal regInv_restoreModal (st.modals.map (fun m => m.title)) st h

/-- `resetZLoop` preserves identities. -/
theorem resetZLoop_wids : ∀ (z : ℤ) (l : List ModalWindow),
    (resetZLoop z l).1.map (fun m => m.wid) = l.map (fun m => m.wid) := by
  intro z l
  induction l generalizing z with
  | nil => rfl
  | cons a t ih => simp [resetZLoop, ih]

/-- `resetZLoop` preserves titles. -/
theorem resetZLoop_titles : ∀ (z : ℤ) (l : List ModalWindow),
    (resetZLoop z l).1.map (fun m => m.title) = l.map (fun m => m.title) := by
  intro z l
  induction l generalizing z with
  | nil => rfl
  | cons a t ih => simp [resetZLoop, ih]

/-- `resetZLoop` preserves identity–active pairs. -/
theorem resetZLoop_widActive : ∀ (z : ℤ) (l : List ModalWindow),
    (resetZLoop z l).1.map (fun m => (m.wid, m.active)) = l.map (fun m => (m.wid, m.active)) := by
  intro z l
  induction l generalizing z with
  | nil => rfl
  | cons a t ih => simp [resetZLoop, ih]

/-- The counter `resetZLoop` returns. -/
theorem resetZLoop_snd : ∀ (z : ℤ) (l : List ModalWindow),
    (resetZLoop z l).2 = z + (l.length : ℤ) := by
  intro z l
  induction l generalizing z with
  | nil => simp [resetZLoop]
  | cons a t ih =>
      show (resetZLoop (z + 1) t).2 = z + ((t.length + 1 : ℕ) : ℤ)
      rw [ih (z + 1)]
      push_cast
      ring

/-- Every z-index `resetZLoop` assigns stays below the counter it
returns. -/
theorem resetZLoop_zBound : ∀ (z : ℤ) (l : List ModalWindow),
    ∀ m ∈ (resetZLoop z l).1, m.elemZIndex ≤ (resetZLoop z l).2 := by
  intro z l
  induction l generalizing z with
  | nil => intro m hm; simp [resetZLoop] at hm
  | cons a t ih =>
      intro m hm
      rcases List.mem_cons.1 hm with rfl | hm2
      · show z ≤ (resetZLoop (z + 1) t).2
        rw [resetZLoop_snd]
        have : (0 : ℤ) ≤ (t.length : ℤ) := Int.natCast_nonneg _
        linarith
      · exact ih (z + 1) m hm2

/-- `ActiveOK` only depends on the identity–active pairs and the
recorded active modal. -/
theorem activeOK_of_widActive_eq {st st' : ModalManager}
    (h1 : st'.modals.map (fun m => (m.wid, m.active)) = st.modals.map (fun m => (m.wid, m.active)))
    (h2 : st'.activeModal = st.activeModal) (h : ActiveOK st) : ActiveOK st' := by
  have hmem : ∀ m' ∈ st'.modals, ∃ m ∈ st.modals, m.wid = m'.wid ∧ m.active = m'.active := by
    intro m' hm'
    have : (m'.wid, m'.active) ∈ st.modals.map (fun m => (m.wid, m.active)) := by
      rw [← h1]
      exact List.mem_map_of_mem _ hm'
    obtain ⟨m, hm, he⟩ := List.mem_map.1 this
    exact ⟨m, hm, congrArg Prod.fst he, congrArg Prod.snd he⟩
  have hmem2 : ∀ m ∈ st.modals, ∃ m' ∈ st'.modals, m'.wid = m.wid ∧ m'.active = m.active := by
    intro m hm
    have : (m.wid, m.active) ∈ st'.modals.map (fun m => (m.wid, m.active)) := by
      rw [h1]
      exact List.mem_map_of_mem _ hm
    obtain ⟨m', hm', he⟩ := List.mem_map.1 this
    exact ⟨m', hm', congrArg Prod.fst he, congrArg Prod.snd he⟩
  unfold ActiveOK at h ⊢
  rw [h2]
  cases hA : st.activeModal with
  | none =>
      rw [hA] at h
      intro m' hm'
      obtain ⟨m, hm, _, ha⟩ := hmem m' hm'
      rw [← ha]
      exact h m hm
  | some i =>
      rw [hA] at h
      obtain ⟨⟨m0, hm0, hwid0⟩, hiff⟩ := h
      obtain ⟨m0', hm0', hw', _⟩ := hmem2 m0 hm0
      refine ⟨⟨m0', hm0', by rw [hw', hwid0]⟩, ?_⟩
      intro m' hm'
      obtain ⟨m, hm, hw2, ha2⟩ := hmem m' hm'
      rw [← ha2, ← hw2]
      exact hiff m hm

/-- Z-index reset preserves the registry invariant. -/
theorem regInv_resetModalZIndexes (st : ModalManager) (h : RegInv st) :
    RegInv (resetModalZIndexes st) := by
  refine ⟨⟨?_, ?_, ?_, ?_, ?_⟩, ?_⟩
  · show ((resetZLoop 1000 st.modals).1.map (fun m => m.wid)).Nodup
    rw [resetZLoop_wids]
    exact h.1.widsNodup
  · show ((resetZLoop 1000 st.modals).1.map (fun m => m.title)).Nodup
    rw [resetZLoop_titles]
    exact h.1.titlesNodup
  · intro m hm
    have hmem : m.wid ∈ (resetZLoop 1000 st.modals).1.map (fun m => m.wid) :=
      List.mem_map_of_mem _ hm
    rw [resetZLoop_wids] at hmem
    obtain ⟨m0, hm0, he⟩ := List.mem_map.1 hmem
    show m.wid < st.counter
    rw [← he]
    exact h.1.counterBound m0 hm0
  · exact resetZLoop_zBound 1000 st.modals
  · show (1000 : ℤ) ≤ (resetZLoop 1000 st.modals).2
    rw [resetZLoop_snd]
    have : (0 : ℤ) ≤ (st.modals.length : ℤ) := Int.natCast_nonneg _
    linarith
  · apply @activeOK_of_widActive_eq st (resetModalZIndexes st) ?_ rfl h.2
    show (resetZLoop 1000 st.modals).1.map (fun m => (m.wid, m.active)) =
      st.modals.map (fun m => (m.wid, m.active))
    exact resetZLoop_widActive 1000 st.modals

/-- Restore-by-title preserves the registry invariant. -/
theorem regInv_restoreModalByTitle (st : ModalManager) (t : String) (h : RegInv st) :
    RegInv (restoreModalByTitle st t) := by
  unfold restoreModalByTitle
  cases hf : st.modals.find? (fun m => m.title == t) with
  | none => exact h
  | some w =>
      show RegInv (if w.state.isMinimized = true then
        { bringModalToFront (restoreModal st w.wid) w.wid with
          dock := dockRemove (bringModalToFront (restoreModal st w.wid) w.wid).dock t }
        else st)
      by_cases hmin : w.state.isMinimized = true
      · rw [if_pos hmin]
        have h1 : RegInv (restoreModal st w.wid) := regInv_restoreModal st w.wid h
        have hmem : ∃ m ∈ (restoreModal st w.wid).modals, m.wid = w.wid := by
          have hw : w ∈ st.modals := List.mem_of_find?_eq_some hf
          have he : (restoreModal st w.wid).modals =
              st.modals.map (fun m => if m.wid == w.wid then (m.restore).1 else m) :=
            (applyEvents_fields _ _).1
          rw [he]
          refine ⟨_, List.mem_map_of_mem
            (fun m => if m.wid == w.wid then (m.restore).1 else m) hw, ?_⟩
          have hc : (w.wid == w.wid) = true := by simp
          simp only [if_pos hc]
          unfold ModalWindow.restore
          by_cases h3 : w.state.isMinimized = true <;> simp [h3]
        have h2 : RegInv (bringModalToFront (restoreModal st w.wid) w.wid) :=
          regInv_bringModalToFront _ _ hmem h1
        exact @regInv_transfer (bringModalToFront (restoreModal st w.wid) w.wid) _
          rfl rfl rfl rfl h2
      · rw [if_neg hmin]
        exact h

/-- The empty registry satisfies the invariant. -/
theorem regInv_initialManager : RegInv initialManager := by
  refine ⟨⟨?_, ?_, ?_, ?_, ?_⟩, ?_⟩
  · simp [initialManager]
  · simp [initialManager]
  · intro w hw
    simp [initialManager] at hw
  · intro w hw
    simp [initialManager] at hw
  · norm_num [initialManager]
  · unfold ActiveOK
    intro w hw
    simp [initialManager] at hw

/-- Every operation preserves the registry invariant, so every reachable
state satisfies it. -/
theorem regInv_reachable (st : ModalManager) (h : Reachable st) : RegInv st := by
  induction h with
  | init => exact regInv_initialManager
  | step hR hs ih =>
      cases hs with
      | create title width height left top color =>
          exact regInv_createModal _ title width height left top color ih
      | focus w hw => exact regInv_bringModalToFront _ w.wid ⟨w, hw, rfl⟩ ih
      | close w hw =>
          refine regInv_closeModal _ w ?_ ih
          intro m hm
          constructor
          · intro e
            rw [List.inj_on_of_nodup_map ih.1.titlesNodup hm hw e]
          · intro e
            rw [List.inj_on_of_nodup_map ih.1.widsNodup hm hw e]
      | minimize w hw => exact regInv_minimizeModal _ w.wid ih
      | restore w hw => exact regInv_restoreModal _ w.wid ih
      | restoreByTitle t => exact regInv_restoreModalByTitle _ t ih
      | clearActive => exact regInv_clearActiveModal _ ih.1
      | toggleMax w hw hostW hostH => exact regInv_toggleMaximizeModal _ w.wid hostW hostH ih
      | drag w hw dx dy => exact regInv_dragModal _ w.wid dx dy ih
      | resize w hw dir dx dy => exact regInv_resizeModal _ w.wid dir dx dy ih
      | minimizeAll => exact regInv_minimizeAllModals _ ih
      | restoreAll => exact regInv_restoreAllModals _ ih
      | closeAll => exact regInv_closeAllModals _ ih
      | resetZ => exact regInv_resetModalZIndexes _ ih
      | titleBarMinAll => exact regInv_titleBarMinimizeAll _ ih

/-- `demoState1` is reachable. -/
theorem demoState1_reachable : Reachable demoState1 :=
  Reachable.step Reachable.init
    (Step.create initialManager "HELLO Dialog" 600 400 100 100 "#007acc")

/-- `demoState2` is reachable. -/
theorem demoState2_reachable : Reachable demoState2 :=
  Reachable.step demoState1_reachable
    (Step.create demoState1 "Small Window" 400 300 200 200 "#8e44ad")

/-- C1: in every reachable registry state at most one window carries the
active attribute, and whenever the registry records an active modal, the
recorded window is registered, active, and the only active window. -/
theorem activeModal_unique (st : ModalManager) (h : Reachable st) :
    (∀ w1 ∈ st.modals, ∀ w2 ∈ st.modals, w1.active = true → w2.active = true → w1 = w2) ∧
    (∀ i, st.activeModal = some i →
      ∃ w ∈ st.modals, w.wid = i ∧ w.active = true ∧
        ∀ w' ∈ st.modals, w'.active = true → w' = w) := by
  have hInv := regInv_reachable st h
  have hAok := hInv.2
  unfold ActiveOK at hAok
  constructor
  · intro w1 hw1 w2 hw2 ha1 ha2
    cases hA : st.activeModal with
    | none =>
        rw [hA] at hAok
        rw [hAok w1 hw1] at ha1
        exact absurd ha1 (by simp)
    | some i =>
        rw [hA] at hAok
        obtain ⟨_, hiff⟩ := hAok
        have e1 := (hiff w1 hw1).1 ha1
        have e2 := (hiff w2 hw2).1 ha2
        exact List.inj_on_of_nodup_map hInv.1.widsNodup hw1 hw2 (by rw [e1, e2])
  · intro i hA
    rw [hA] at hAok
    obtain ⟨⟨w0, hw0, hwid0⟩, hiff⟩ := hAok
    refine ⟨w0, hw0, hwid0, (hiff w0 hw0).2 hwid0, ?_⟩
    intro w' hw' ha'
    have e' := (hiff w' hw').1 ha'
    exact List.inj_on_of_nodup_map hInv.1.widsNodup hw' hw0 (by rw [e', hwid0])

/-- Witness for C1 at a concrete reachable state. -/
theorem activeModal_unique_witness :
    Reachable demoState1 ∧
    ((∀ w1 ∈ demoState1.modals, ∀ w2 ∈ demoState1.modals,
        w1.active = true → w2.active = true → w1 = w2) ∧
     (∀ i, demoState1.activeModal = some i →
       ∃ w ∈ demoState1.modals, w.wid = i ∧ w.active = true ∧
         ∀ w' ∈ demoState1.modals, w'.active = true → w' = w)) :=
  ⟨demoState1_reachable, activeModal_unique demoState1 demoState1_reachable⟩

/-- C2 evaluated at the failing input (code bug): after the title-bar
app-icon minimize-all on a registry with one Normal window, the window
is hidden like a minimized one (`display: none`), yet its `isMinimized`
state is still false and the dock holds no entry — the `modalMinimized`
event that `minimizeModalToDock` dispatches has no listener, so the dock
never hears of this minimize path. -/
theorem titleBarMinimizeAll_dock_desync :
    ((titleBarMinimizeAll demoState1).modals.map
        (fun m => (m.title, m.visible, m.state.isMinimized))
      = [("HELLO Dialog", false, false)]) ∧
    (titleBarMinimizeAll demoState1).dock = [] := by
  constructor
  · rfl
  · rfl

/-- C3: focusing any registered window in any reachable state gives it
the maximum element z-index, strictly above every other window. -/
theorem focus_top_zIndex (st : ModalManager) (h : Reachable st) (w : ModalWindow)
    (hw : w ∈ st.modals) :
    ∃ wf ∈ (bringModalToFront st w.wid).modals, wf.wid = w.wid ∧
      (∀ m ∈ (bringModalToFront st w.wid).modals, m.elemZIndex ≤ wf.elemZIndex) ∧
      (∀ m ∈ (bringModalToFront st w.wid).modals, m.wid ≠ w.wid →
        m.elemZIndex < wf.elemZIndex) := by
  have hInv := regInv_reachable st h
  have hwfz : (focusMapFun (max (st.nextZIndex + 1) 100) w.wid w).elemZIndex =
      max (st.nextZIndex + 1) 100 := by
    unfold focusMapFun
    simp
  rw [bringModalToFront_eq]
  refine ⟨focusMapFun (max (st.nextZIndex + 1) 100) w.wid w,
    List.mem_map_of_mem _ hw, focusMapFun_wid _ _ _, ?_, ?_⟩
  · intro m hm
    obtain ⟨m0, hm0, rfl⟩ := List.mem_map.1 hm
    rw [hwfz]
    unfold focusMapFun
    by_cases hc : (m0.wid == w.wid) = true
    · rw [if_pos hc]
    · rw [if_neg hc]
      have h1 := hInv.1.zBound m0 hm0
      exact le_trans (le_trans h1 (by linarith)) (le_max_left _ _)
  · intro m hm hne
    obtain ⟨m0, hm0, rfl⟩ := List.mem_map.1 hm
    rw [hwfz]
    rw [focusMapFun_wid] at hne
    have hc : ¬ (m0.wid == w.wid) = true := by
      simpa using hne
    unfold focusMapFun
    rw [if_neg hc]
    have h1 := hInv.1.zBound m0 hm0
    have h2 : st.nextZIndex < st.nextZIndex + 1 := by linarith
    exact lt_of_le_of_lt h1 (lt_of_lt_of_le h2 (le_max_left _ _))

/-- Witness for C3 at a concrete reachable state and registered window. -/
theorem focus_top_zIndex_witness :
    Reachable demoState1 ∧ demoWindow1 ∈ demoState1.modals ∧
    (∃ wf ∈ (bringModalToFront demoState1 demoWindow1.wid).modals, wf.wid = demoWindow1.wid ∧
      (∀ m ∈ (bringModalToFront demoState1 demoWindow1.wid).modals,
        m.elemZIndex ≤ wf.elemZIndex) ∧
      (∀ m ∈ (bringModalToFront demoState1 demoWindow1.wid).modals, m.wid ≠ demoWindow1.wid →
        m.elemZIndex < wf.elemZIndex)) :=
  ⟨demoState1_reachable, by decide,
   focus_top_zIndex demoState1 demoState1_reachable demoWindow1 (by decide)⟩

/-- C5: closing the active window of a registry holding at least two
windows removes its title from the registry and focuses the last window
in registry (insertion) order among the remaining ones, which becomes
the recorded active modal, active attribute included. -/
theorem close_active_focuses_lastInserted (st : ModalManager) (h : Reachable st)
    (w : ModalWindow) (hw : w ∈ st.modals) (hact : st.activeModal = some w.wid)
    (hlen : 2 ≤ st.modals.length) :
    (∀ m ∈ (closeModal st w).modals, m.title ≠ w.title) ∧
    ∃ last, (mapDelete st.modals w.title).getLast? = some last ∧
      (closeModal st w).activeModal = some last.wid ∧
      ∃ m ∈ (closeModal st w).modals, m.wid = last.wid ∧ m.active = true := by
  have hInv := regInv_reachable st h
  have hnodup : st.modals.Nodup := hInv.1.widsNodup.of_map
  have hex : ∃ m ∈ st.modals, m ≠ w := by
    rcases hml : st.modals with _ | ⟨a, rest1⟩
    · rw [hml] at hlen
      simp at hlen
    · rcases hml2 : rest1 with _ | ⟨b, rest2⟩
      · rw [hml, hml2] at hlen
        simp at hlen
      · by_cases haw : a = w
        · refine ⟨b, ?_, ?_⟩
          · exact List.mem_cons_of_mem _ (List.mem_cons_self _ _)
          · intro e
            rw [hml, hml2] at hnodup
            simp only [List.nodup_cons] at hnodup
            exact hnodup.1 (by rw [haw, ← e]; exact List.mem_cons_self _ _)
        · exact ⟨a, List.mem_cons_self _ _, haw⟩
  obtain ⟨m1, hm1, hm1w⟩ := hex
  have hm1t : ¬ m1.title = w.title := by
    intro e
    exact hm1w (List.inj_on_of_nodup_map hInv.1.titlesNodup hm1 hw e)
  have hmem1 : m1 ∈ mapDelete st.modals w.title :=
    List.mem_filter.2 ⟨hm1, by simpa using hm1t⟩
  have hnenil : mapDelete st.modals w.title ≠ [] := List.ne_nil_of_mem hmem1
  obtain ⟨last, hl⟩ := Option.isSome_iff_exists.1 (List.getLast?_isSome.2 hnenil)
  have hclose : closeModal st w =
      { bringModalToFront
          { st with modals := mapDelete st.modals w.title, activeModal := none } last.wid with
        dock := dockRemove
          (bringModalToFront
            { st with modals := mapDelete st.modals w.title, activeModal := none }
            last.wid).dock w.title } := by
    unfold closeModal
    dsimp only
    rw [if_pos hact, hl]
  constructor
  · intro m hm
    rw [hclose, bringModalToFront_eq] at hm
    obtain ⟨m0, hm0, rfl⟩ := List.mem_map.1 hm
    have hb := (List.mem_filter.1 hm0).2
    rw [focusMapFun_title]
    simpa using hb
  · refine ⟨last, hl, ?_, ?_⟩
    · rw [hclose]
      rfl
    · rw [hclose]
      refine ⟨focusMapFun (max (st.nextZIndex + 1) 100) last.wid last, ?_, ?_, ?_⟩
      · show focusMapFun (max (st.nextZIndex + 1) 100) last.wid last ∈
          (mapDelete st.modals w.title).map (focusMapFun (max (st.nextZIndex + 1) 100) last.wid)
        exact List.mem_map_of_mem _ (List.mem_of_getLast?_eq_some hl)
      · exact focusMapFun_wid _ _ _
      · unfold focusMapFun
        simp

/-- Witness for C5: close the active second window of a two-window
registry. -/
theorem close_active_focuses_lastInserted_witness :
    (Reachable demoState2 ∧ demoWindow2 ∈ demoState2.modals ∧
      demoState2.activeModal = some demoWindow2.wid ∧ 2 ≤ demoState2.modals.length) ∧
    ((∀ m ∈ (closeModal demoState2 demoWindow2).modals, m.title ≠ demoWindow2.title) ∧
     ∃ last, (mapDelete demoState2.modals demoWindow2.title).getLast? = some last ∧
       (closeModal demoState2 demoWindow2).activeModal = some last.wid ∧
       ∃ m ∈ (closeModal demoState2 demoWindow2).modals, m.wid = last.wid ∧ m.active = true) :=
  ⟨⟨demoState2_reachable, by decide, by decide, by decide⟩,
   close_active_focuses_lastInserted demoState2 demoState2_reachable demoWindow2
     (by decide) (by decide) (by decide)⟩

/-- Running a title- and identity-preserving window method leaves the
registry's title–identity pairs unchanged. -/
theorem updateWindow_pairs (st : ModalManager) (i : ℕ)
    (f : ModalWindow → ModalWindow × List ModalEvent)
    (hwid : ∀ m, (f m).1.wid = m.wid) (htit : ∀ m, (f m).1.title = m.title) :
    (updateWindow st i f).modals.map (fun m => (m.title, m.wid)) =
      st.modals.map (fun m => (m.title, m.wid)) := by
  have h1 : (updateWindow st i f).modals =
      st.modals.map (fun m => if m.wid == i then (f m).1 else m) :=
    (applyEvents_fields _ _).1
  rw [h1]
  apply map_map_eq_of
  intro m
  by_cases hc : (m.wid == i) = true
  · simp only [if_pos hc]
    rw [htit m, hwid m]
  · simp only [if_neg hc]

/-- With duplicate-free titles, looking a member's title up finds
exactly that member. -/
theorem find?_self_of_titlesNodup (l : List ModalWindow)
    (hn : (l.map (fun m => m.title)).Nodup) (w : ModalWindow) (hw : w ∈ l) :
    l.find? (fun m => m.title == w.title) = some w := by
  induction l with
  | nil => simp at hw
  | cons a t ih =>
      simp only [List.map_cons, List.nodup_cons] at hn
      obtain ⟨ha, hn2⟩ := hn
      rcases List.mem_cons.1 hw with rfl | hw2
      · exact List.find?_cons_of_pos t
          (show ((fun (m : ModalWindow) => m.title == w.title) w = true) by simp)
      · have hne : ¬ (a.title == w.title) = true := by
          simp only [beq_iff_eq]
          intro e
          exact ha (e ▸ List.mem_map_of_mem _ hw2)
        rw [List.find?_cons_of_neg t
          (show ¬ ((fun (m : ModalWindow) => m.title == w.title) a = true) from hne)]
        exact ih hn2 hw2

/-- Identity of the window a title lookup finds, transported along
equality of title–identity pairs. -/
theorem find?_wid_eq_of_pairs : ∀ (l1 l2 : List ModalWindow),
    l1.map (fun m => (m.title, m.wid)) = l2.map (fun m => (m.title, m.wid)) →
    ∀ t : String,
      (l1.find? (fun m => m.title == t)).map (fun m => m.wid) =
      (l2.find? (fun m => m.title == t)).map (fun m => m.wid) := by
  intro l1
  induction l1 with
  | nil =>
      intro l2 hp t
      cases l2 with
      | nil => rfl
      | cons b l2t => simp at hp
  | cons a l1t ih =>
      intro l2 hp t
      cases l2 with
      | nil => simp at hp
      | cons b l2t =>
          simp only [List.map_cons, List.cons.injEq] at hp
          obtain ⟨hab, htail⟩ := hp
          have htit : a.title = b.title := congrArg Prod.fst hab
          have hwid : a.wid = b.wid := congrArg Prod.snd hab
          by_cases hc : (a.title == t) = true
          · have hc2 : (b.title == t) = true := by rw [← htit]; exact hc
            rw [List.find?_cons_of_pos l1t
                (show ((fun (m : ModalWindow) => m.title == t) a = true) from hc),
              List.find?_cons_of_pos l2t
                (show ((fun (m : ModalWindow) => m.title == t) b = true) from hc2)]
            simp [hwid]
          · have hc2 : ¬ (b.title == t) = true := by rw [← htit]; exact hc
            rw [List.find?_cons_of_neg l1t
                (show ¬ ((fun (m : ModalWindow) => m.title == t) a = true) from hc),
              List.find?_cons_of_neg l2t
                (show ¬ ((fun (m : ModalWindow) => m.title == t) b = true) from hc2)]
            exact ih l2t htail t

/-- Iterating the live map is the same as iterating a pre-taken snapshot
whenever the single-window operation keeps the title–identity pairs
intact and the initial lookups resolve to the snapshot identities. -/
theorem forEachLiveTitle_eq_snapshot (op : ModalManager → ℕ → ModalManager)
    (hpairs : ∀ s i, (op s i).modals.map (fun m => (m.title, m.wid)) =
      s.modals.map (fun m => (m.title, m.wid))) :
    ∀ (ws : List ModalWindow) (s : ModalManager),
      (∀ w ∈ ws, (s.modals.find? (fun m => m.title == w.title)).map (fun m => m.wid) =
        some w.wid) →
      forEachLiveTitle op (ws.map (fun m => m.title)) s =
        ws.foldl (fun s w => op s w.wid) s := by
  intro ws
  induction ws with
  | nil => intro s _; rfl
  | cons w rest ih =>
      intro s hfind
      rw [List.map_cons, forEachLiveTitle, List.foldl_cons]
      have h1 := hfind w (List.mem_cons_self _ _)
      cases hf : s.modals.find? (fun m => m.title == w.title) with
      | none =>
          rw [hf] at h1
          simp at h1
      | some w' =>
          rw [hf] at h1
          have h2 : w'.wid = w.wid := by simpa using h1
          show forEachLiveTitle op (rest.map (fun m => m.title)) (op s w'.wid) =
            rest.foldl (fun s w => op s w.wid) (op s w.wid)
          rw [h2]
          apply ih
          intro w2 hw2
          rw [find?_wid_eq_of_pairs (op s w.wid).modals s.modals (hpairs s w.wid) w2.title]
          exact hfind w2 (List.mem_cons_of_mem _ hw2)

/-- C8: each bulk operation behaves exactly as applying its single-window
operation to every element of a snapshot of the window collection taken
before iteration begins (`minimizeAllModals`/`restoreAllModals` iterate
the live map in the source, but minimize/restore never change the key
set; `closeAllModals` snapshots explicitly). -/
theorem bulkOps_snapshot_equivalence (st : ModalManager)
    (ht : (st.modals.map (fun m => m.title)).Nodup) :
    minimizeAllModals st = snapshotMinimizeAll st ∧
    restoreAllModals st = snapshotRestoreAll st ∧
    closeAllModals st = snapshotCloseAll st := by
  have hfind : ∀ w ∈ st.modals,
      (st.modals.find? (fun m => m.title == w.title)).map (fun m => m.wid) = some w.wid := by
    intro w hw
    rw [find?_self_of_titlesNodup st.modals ht w hw]
    rfl
  refine ⟨?_, ?_, rfl⟩
  · unfold minimizeAllModals snapshotMinimizeAll
    exact forEachLiveTitle_eq_snapshot minimizeModal
      (fun s i => updateWindow_pairs s i ModalWindow.minimize (fun _ => rfl) (fun _ => rfl))
      st.modals st hfind
  · unfold restoreAllModals snapshotRestoreAll
    refine forEachLiveTitle_eq_snapshot restoreModal ?_ st.modals st hfind
    intro s i
    refine updateWindow_pairs s i ModalWindow.restore ?_ ?_
    · intro m
      unfold ModalWindow.restore
      by_cases hc : m.state.isMinimized = true
      · rw [if_pos hc]
      · rw [if_neg hc]
    · intro m
      unfold ModalWindow.restore
      by_cases hc : m.state.isMinimized = true
      · rw [if_pos hc]
      · rw [if_neg hc]

/-- Witness for C8 at a concrete two-window registry. -/
theorem bulkOps_snapshot_equivalence_witness :
    (demoState2.modals.map (fun m => m.title)).Nodup ∧
    (minimizeAllModals demoState2 = snapshotMinimizeAll demoState2 ∧
     restoreAllModals demoState2 = snapshotRestoreAll demoState2 ∧
     closeAllModals demoState2 = snapshotCloseAll demoState2) :=
  ⟨by decide, bulkOps_snapshot_equivalence demoState2 (by decide)⟩

/-- Witness for C10: restoring a concrete minimized window by title
delivers the restore-from-dock notification exactly twice. -/
theorem restoreModalByTitle_twice_witness :
    ((minimizeModal demoState1 0).modals.find? (fun m => m.title == "HELLO Dialog") =
        some demoWindow1Min ∧
      demoWindow1Min.state.isMinimized = true) ∧
    restoreModalByTitleTrace (minimizeModal demoState1 0) "HELLO Dialog" =
      ["HELLO Dialog", "HELLO Dialog"] :=
  ⟨⟨by decide, by decide⟩,
   restoreModalByTitle_twice (minimizeModal demoState1 0) "HELLO Dialog" demoWindow1Min
     (by decide) (by decide)⟩
